import Mathlib

/-!
Verification of the bowling-tracker chat query-resolution pipeline
(`src/app/api/chat/route.ts`).

Modelling conventions for the shallow embedding:

* JavaScript strings are modelled as lists of Unicode code points
  (`Str := List Nat`).  All questions, answers and SQL text in the route
  are handled code-unit-wise by the source, and every string reaching the
  interesting code paths is BMP text, where code units and code points
  coincide.
* JavaScript numbers that are always integral in the source (scores, pin
  counts, epoch milliseconds, minutes-of-day, timezone offsets) are
  modelled as `Int`/`Nat`; the database schema in the source declares
  `total_score int` and `pins int`, and sums of these are exact in
  binary64.  A quantity produced by a division (average, rate) is an
  IEEE-754 binary64 quotient in the source; it is modelled as the exact
  rational value of that double (`jsDiv`, built on `dblRound`, the
  round-to-nearest-ties-to-even conversion).  The source then rounds
  with `toFixed(2)`/`toFixed(3)` and re-parses with `Number(...)`;
  `round2`/`round3` compute the decimal value of the `toFixed` string,
  which the stored double prints back verbatim.
* Timestamps (`played_at`, `created_at`, `started_at`) are ISO strings in
  the source, immediately converted to epoch milliseconds by `Date.parse`
  wherever they are used; they are modelled directly as the epoch
  millisecond instant (`Option Int`, `none` for SQL `null`).  The
  `utcDateStart`/`utcDateEnd` fields, produced by `toISOString` and read
  back only through `Date.parse`, are likewise modelled as the underlying
  instant.
* `Array.prototype.sort` with a numeric comparator is stable in
  JavaScript; it is modelled by a stable insertion sort.
  `String.prototype.localeCompare` on the UUID id strings used for
  tie-breaking is modelled as code-point lexicographic comparison.
* `String.prototype.toLowerCase`/`toUpperCase` are modelled on the ASCII
  range (identity elsewhere); every string the route lowercases on the
  verified paths is ASCII.
-/

namespace BowlingChat

/-- A JavaScript string, as its list of code points. -/
abbrev Str := List Nat

/-- Code points of a Lean string literal. -/
def strLit (s : String) : Str := s.data.map Char.toNat

/-- JS regex word character (`\w` and the `\b` boundary class):
`[A-Za-z0-9_]`. -/
def isWordChar (c : Nat) : Bool :=
  (48 ≤ c && c ≤ 57) || (65 ≤ c && c ≤ 90) || (97 ≤ c && c ≤ 122) || c == 95

/-- JS `\s` / `String.prototype.trim` whitespace class. -/
def isJsWs (c : Nat) : Bool :=
  (9 ≤ c && c ≤ 13) || c == 32 || c == 160 || c == 5760 ||
  (8192 ≤ c && c ≤ 8202) || c == 8232 || c == 8233 || c == 8239 ||
  c == 8287 || c == 12288 || c == 65279

/-- ASCII lower-casing of one code point (`toLowerCase`). -/
def lowerN (c : Nat) : Nat := if 65 ≤ c && c ≤ 90 then c + 32 else c

/-- ASCII upper-casing of one code point (`toUpperCase`). -/
def upperN (c : Nat) : Nat := if 97 ≤ c && c ≤ 122 then c - 32 else c

/-- `String.prototype.toLowerCase`. -/
def toLowerStr (l : Str) : Str := l.map lowerN

/-- `String.prototype.trim`. -/
def jsTrim (l : Str) : Str :=
  ((l.dropWhile isJsWs).reverse.dropWhile isJsWs).reverse

/-- `String.prototype.includes` (substring containment). -/
def containsStr (hay pat : Str) : Bool :=
  if pat.isPrefixOf hay then true else
    match hay with
    | [] => false
    | _ :: t => containsStr t pat

/-- Case-insensitive prefix test: the first `pat.length` code points of
`l`, lowercased, equal `pat` (`pat` is given lowercase). -/
def startsWithCI (pat l : Str) : Bool :=
  (l.take pat.length).map lowerN == pat

/-- `\b` word-boundary condition looking right: end of input or a
non-word character. -/
def boundaryAfter (l : Str) : Bool :=
  match l with
  | [] => true
  | c :: _ => !isWordChar c

/-- One position of the scan for the regex `\bw\b` (case-insensitive):
`prevW` says whether the previous code point was a word character. -/
def containsWordFrom (w : Str) (prevW : Bool) : Str → Bool
  | [] => false
  | c :: rest =>
    (!prevW && startsWithCI w (c :: rest) && boundaryAfter ((c :: rest).drop w.length))
      || containsWordFrom w (isWordChar c) rest

/-- Test of the JS regex `/\bw\b/i` on a string, `w` given lowercase. -/
def containsWordCI (w l : Str) : Bool := containsWordFrom w false l

/-- The 16 keywords rejected by `validateSql`. -/
def forbiddenSqlKeywords : List Str :=
  [strLit "insert", strLit "update", strLit "delete", strLit "drop",
   strLit "alter", strLit "create", strLit "grant", strLit "revoke",
   strLit "truncate", strLit "call", strLit "execute", strLit "set",
   strLit "vacuum", strLit "analyze", strLit "refresh", strLit "copy"]

/-- The replacement of `/;+\s*$/` by the empty string: remove a trailing
run of whitespace together with the run of semicolons immediately before
it, when that semicolon run is non-empty. -/
def stripTrailingSemis (l : Str) : Str :=
  let afterWs := l.reverse.dropWhile isJsWs
  let semis := afterWs.takeWhile (fun c => c == 59)
  if semis.isEmpty then l else (afterWs.dropWhile (fun c => c == 59)).reverse

/-- `sql.trim().replace(/;+\s*$/, "")` from `validateSql`. -/
def sqlCore (sql : Str) : Str := stripTrailingSemis (jsTrim sql)

/-- `/^select\b/i`. -/
def startsSelect (l : Str) : Bool :=
  startsWithCI (strLit "select") l && boundaryAfter (l.drop 6)

/-- `validateSql` from the source: `some safeSql` on acceptance, `none`
with the source's reason collapsed on rejection. -/
def validateSql (sql : Str) : Option Str :=
  let trimmed := sqlCore sql
  if !startsSelect trimmed then none
  else if trimmed.contains 59 then none
  else if forbiddenSqlKeywords.any (fun kw => containsWordCI kw trimmed) then none
  else if containsWordCI (strLit "limit") trimmed then some trimmed
  else some (trimmed ++ strLit " limit 200")

/-- Claim-side notion: `l` contains the word `w` (case-insensitively, at
JS `\b` word boundaries) — a decomposition `pre ++ mid ++ post` where
`mid` lowercases to `w`, `pre` does not end in a word character and
`post` does not start with one. -/
def WordOccur (w l : Str) : Prop :=
  ∃ pre mid post, l = pre ++ mid ++ post ∧ mid.map lowerN = w ∧
    (match pre.getLast? with
     | none => true
     | some c => !isWordChar c) = true ∧
    boundaryAfter post = true

/-- Claim-side notion: `l` starts with the word `select`
(case-insensitively, at a word boundary). -/
def SelectStart (l : Str) : Prop :=
  ∃ mid rest, l = mid ++ rest ∧ mid.map lowerN = strLit "select" ∧
    boundaryAfter rest = true

theorem startsWithCI_iff (w l : Str) :
    startsWithCI w l = true ↔ ∃ mid rest, l = mid ++ rest ∧ mid.map lowerN = w := by
  constructor
  · intro h
    refine ⟨l.take w.length, l.drop w.length, (l.take_append_drop w.length).symm, ?_⟩
    simpa [startsWithCI] using h
  · rintro ⟨mid, rest, rfl, rfl⟩
    simp [startsWithCI, List.take_append_of_le_length, List.take_length,
      List.take_append_eq_append_take]

theorem select_start_iff (l : Str) : startsSelect l = true ↔ SelectStart l := by
  constructor
  · intro h
    simp only [startsSelect, Bool.and_eq_true] at h
    obtain ⟨mid, rest, rfl, hm⟩ := (startsWithCI_iff _ _).1 h.1
    have hlen : mid.length = 6 := by
      have := congrArg List.length hm
      simpa [strLit] using this
    refine ⟨mid, rest, rfl, hm, ?_⟩
    have h2 := h.2
    rwa [List.drop_append_of_le_length (by omega), ← hlen, List.drop_length,
      List.nil_append] at h2
  · rintro ⟨mid, rest, rfl, hm, hb⟩
    have hlen : mid.length = 6 := by
      have := congrArg List.length hm
      simpa [strLit] using this
    simp only [startsSelect, Bool.and_eq_true]
    constructor
    · exact (startsWithCI_iff _ _).2 ⟨mid, rest, rfl, hm⟩
    · rw [List.drop_append_of_le_length (by omega), ← hlen, List.drop_length,
        List.nil_append]
      exact hb

theorem containsWordFrom_iff (w : Str) (hw : w ≠ []) :
    ∀ (l : Str) (b : Bool),
      containsWordFrom w b l = true ↔
        ∃ pre mid post, l = pre ++ mid ++ post ∧ mid.map lowerN = w ∧
          (match pre.getLast? with
           | none => !b
           | some c => !isWordChar c) = true ∧
          boundaryAfter post = true := by
  intro l
  induction l with
  | nil =>
    intro b
    simp only [containsWordFrom, Bool.false_eq_true, false_iff]
    rintro ⟨pre, mid, post, h, hm, _, _⟩
    rcases List.append_eq_nil.mp h.symm with ⟨hpm, hpost⟩
    rcases List.append_eq_nil.mp hpm with ⟨hpre, hmid⟩
    apply hw
    rw [← hm, hmid]
    rfl
  | cons c rest ih =>
    intro b
    simp only [containsWordFrom, Bool.or_eq_true, Bool.and_eq_true]
    constructor
    · rintro (⟨⟨hb, hs⟩, hba⟩ | htail)
      · obtain ⟨mid, post, heq, hm⟩ := (startsWithCI_iff _ _).1 hs
        have hlen : mid.length = w.length := by
          have := congrArg List.length hm; simpa using this
        refine ⟨[], mid, post, by simpa using heq, hm, by simpa using hb, ?_⟩
        rw [heq, List.drop_append_of_le_length (by omega), ← hlen,
          List.drop_length, List.nil_append] at hba
        exact hba
      · obtain ⟨pre, mid, post, heq, hm, hpre, hpost⟩ := (ih (isWordChar c)).1 htail
        refine ⟨c :: pre, mid, post, by simp [heq], hm, ?_, hpost⟩
        cases pre with
        | nil => simpa using hpre
        | cons p ps => simpa [List.getLast?_cons_cons] using hpre
    · rintro ⟨pre, mid, post, heq, hm, hpre, hpost⟩
      cases pre with
      | nil =>
        left
        simp only [List.nil_append] at heq
        have hlen : mid.length = w.length := by
          have := congrArg List.length hm; simpa using this
        refine ⟨⟨by simpa using hpre, (startsWithCI_iff _ _).2 ⟨mid, post, heq, hm⟩⟩, ?_⟩
        rw [heq, List.drop_append_of_le_length (by omega), ← hlen,
          List.drop_length, List.nil_append]
        exact hpost
      | cons p ps =>
        right
        simp only [List.cons_append, List.cons.injEq] at heq
        obtain ⟨hcp, hrest⟩ := heq
        subst hcp
        refine (ih (isWordChar c)).2 ⟨ps, mid, post, hrest, hm, ?_, hpost⟩
        cases ps with
        | nil => simpa using hpre
        | cons q qs => simpa [List.getLast?_cons_cons] using hpre

theorem containsWordCI_iff (w : Str) (hw : w ≠ []) (l : Str) :
    containsWordCI w l = true ↔ WordOccur w l := by
  rw [containsWordCI, containsWordFrom_iff w hw l false]
  rfl

/-- The claim-side acceptance condition of C2, phrased over the trimmed,
semicolon-stripped query. -/
def SqlAccepted (sql : Str) : Prop :=
  SelectStart (sqlCore sql) ∧ ¬ (59 ∈ sqlCore sql) ∧
    ∀ kw ∈ forbiddenSqlKeywords, ¬ WordOccur kw (sqlCore sql)

theorem forbidden_keywords_ne_nil : ∀ kw ∈ forbiddenSqlKeywords, kw ≠ [] := by
  decide

/-- Claim C2: `validateSql` accepts a query iff, after trimming and
stripping trailing semicolons, it starts with the word `SELECT`
(case-insensitively), contains no remaining `;`, and contains none of
the 16 keywords `insert … copy` as a whole word; every accepted query
contains a `LIMIT` clause, ` limit 200` being appended exactly when the
validated text had none. -/
theorem appended_limit_occurs (core : Str) :
    WordOccur (strLit "limit") (core ++ strLit " limit 200") := by
  refine ⟨core ++ [32], strLit "limit", strLit " 200", ?_, by decide, ?_, by decide⟩
  · simp [strLit]
  · have h32 : (core ++ [32]).getLast? = some 32 := by simp
    rw [h32]
    decide

theorem claim_c2_validateSql (sql : Str) :
    ((validateSql sql).isSome ↔ SqlAccepted sql) ∧
    (∀ t, validateSql sql = some t →
      WordOccur (strLit "limit") t ∧
      t = (if containsWordCI (strLit "limit") (sqlCore sql) then sqlCore sql
           else sqlCore sql ++ strLit " limit 200")) := by
  cases h1 : startsSelect (sqlCore sql) with
  | false =>
    have hval : validateSql sql = none := by
      simp only [validateSql, h1, Bool.not_false, if_true]
    constructor
    · rw [hval]
      simp only [Option.isSome_none, Bool.false_eq_true, false_iff]
      rintro ⟨hsel, _, _⟩
      have hs := (select_start_iff (sqlCore sql)).2 hsel
      rw [h1] at hs
      exact Bool.noConfusion hs
    · intro t ht
      rw [hval] at ht
      exact absurd ht (by simp)
  | true =>
    cases h2 : (sqlCore sql).contains 59 with
    | true =>
      have hval : validateSql sql = none := by
        simp only [validateSql, h1, h2, Bool.not_true, Bool.false_eq_true,
          if_false, ite_false, if_true, ite_true]
      constructor
      · rw [hval]
        simp only [Option.isSome_none, Bool.false_eq_true, false_iff]
        rintro ⟨_, hninm, _⟩
        exact hninm (List.elem_iff.mp h2)
      · intro t ht
        rw [hval] at ht
        exact absurd ht (by simp)
    | false =>
      cases h3 :
          (forbiddenSqlKeywords.any fun kw => containsWordCI kw (sqlCore sql)) with
      | true =>
        have hval : validateSql sql = none := by
          simp only [validateSql, h1, h2, h3, Bool.not_true, Bool.false_eq_true,
            if_false, ite_false, if_true, ite_true]
        constructor
        · rw [hval]
          simp only [Option.isSome_none, Bool.false_eq_true, false_iff]
          rintro ⟨_, _, hkw⟩
          obtain ⟨kw, hkwmem, hkwc⟩ := List.any_eq_true.1 h3
          exact (hkw kw hkwmem) ((containsWordCI_iff kw
            (forbidden_keywords_ne_nil kw hkwmem) (sqlCore sql)).1 hkwc)
        · intro t ht
          rw [hval] at ht
          exact absurd ht (by simp)
      | false =>
        have hsel := (select_start_iff (sqlCore sql)).1 h1
        have hmem : ¬ (59 ∈ sqlCore sql) := by
          intro hm
          have hc : (sqlCore sql).contains 59 = true := List.elem_iff.mpr hm
          rw [h2] at hc
          exact Bool.noConfusion hc
        have hkws : ∀ kw ∈ forbiddenSqlKeywords, ¬ WordOccur kw (sqlCore sql) := by
          intro kw hkw hocc
          have ha : (forbiddenSqlKeywords.any
              fun kw => containsWordCI kw (sqlCore sql)) = true :=
            List.any_eq_true.2 ⟨kw, hkw, (containsWordCI_iff kw
              (forbidden_keywords_ne_nil kw hkw) (sqlCore sql)).2 hocc⟩
          rw [h3] at ha
          exact Bool.noConfusion ha
        cases h4 : containsWordCI (strLit "limit") (sqlCore sql) with
        | true =>
          have hval : validateSql sql = some (sqlCore sql) := by
            simp only [validateSql, h1, h2, h3, h4, Bool.not_true, Bool.false_eq_true,
              if_false, ite_false, if_true, ite_true]
          constructor
          · rw [hval]
            simp only [Option.isSome_some, true_iff]
            exact ⟨hsel, hmem, hkws⟩
          · intro t ht
            rw [hval, Option.some.injEq] at ht
            subst ht
            exact ⟨(containsWordCI_iff _ (by decide) _).1 h4, by simp [h4]⟩
        | false =>
          have hval : validateSql sql = some (sqlCore sql ++ strLit " limit 200") := by
            simp only [validateSql, h1, h2, h3, h4, Bool.not_true, Bool.false_eq_true,
              if_false, ite_false, if_true, ite_true]
          constructor
          · rw [hval]
            simp only [Option.isSome_some, true_iff]
            exact ⟨hsel, hmem, hkws⟩
          · intro t ht
            rw [hval, Option.some.injEq] at ht
            subst ht
            exact ⟨appended_limit_occurs (sqlCore sql), by simp [h4]⟩

/-- Witness for C2 at a concrete accepted query without a LIMIT clause. -/
theorem claim_c2_validateSql_witness :
    validateSql (strLit "SELECT total_score FROM games;") =
      some (strLit "SELECT total_score FROM games limit 200") ∧
    WordOccur (strLit "limit") (strLit "SELECT total_score FROM games limit 200") := by
  have h := (claim_c2_validateSql (strLit "SELECT total_score FROM games;")).2
    (strLit "SELECT total_score FROM games limit 200") (by decide)
  exact ⟨by decide, h.1⟩

/-- A local calendar date as extracted from the question text:
`month` is 0-based, as produced by the source's month table. -/
structure DateFilter where
  year : Int
  month : Int
  day : Int
deriving DecidableEq, Repr

/-- The `TimeFilter` record of the source.  `utcDateStart`/`utcDateEnd`
are modelled as the UTC epoch-millisecond instant denoted by the ISO
string the source stores (see the header notes). -/
structure TimeFilter where
  date : Option DateFilter := none
  rangeStart : Option DateFilter := none
  rangeEnd : Option DateFilter := none
  beforeMinutes : Option Int := none
  afterMinutes : Option Int := none
  utcDateStart : Option Int := none
  utcDateEnd : Option Int := none
deriving DecidableEq, Repr

/-- Days since 1970-01-01 of the proleptic-Gregorian date `(y, m, d)`
with `m` 1-based (Howard Hinnant's `days_from_civil`; the arithmetic the
JS `Date` object performs for `Date.UTC`). -/
def daysFromCivil (y m d : Int) : Int :=
  let y2 := if m ≤ 2 then y - 1 else y
  let era := Int.fdiv y2 400
  let yoe := y2 - era * 400
  let mp := if m > 2 then m - 3 else m + 9
  let doy := Int.fdiv (153 * mp + 2) 5 + d - 1
  let doe := yoe * 365 + Int.fdiv yoe 4 - Int.fdiv yoe 100 + doy
  era * 146097 + doe - 719468

/-- Inverse of `daysFromCivil` (`civil_from_days`): the Gregorian date,
month 1-based, of a count of days since the epoch. -/
def civilFromDays (z0 : Int) : Int × Int × Int :=
  let z := z0 + 719468
  let era := Int.fdiv z 146097
  let doe := z - era * 146097
  let yoe := Int.fdiv (doe - Int.fdiv doe 1460 + Int.fdiv doe 36524 - Int.fdiv doe 146096) 365
  let y := yoe + era * 400
  let doy := doe - (365 * yoe + Int.fdiv yoe 4 - Int.fdiv yoe 100)
  let mp := Int.fdiv (5 * doy + 2) 153
  let d := doy - Int.fdiv (153 * mp + 2) 5 + 1
  let m := if mp < 10 then mp + 3 else mp - 9
  (if m ≤ 2 then y + 1 else y, m, d)

/-- The ECMAScript two-digit-year rule of `Date.UTC`: years 0–99 denote
1900–1999. -/
def utcYear (y : Int) : Int := if 0 ≤ y && y ≤ 99 then y + 1900 else y

/-- `Date.UTC(year, month, day)` (month 0-based, out-of-range month and
day values normalized as ECMAScript `MakeDay` does), in epoch
milliseconds. -/
def dateUTCms (y m d : Int) : Int :=
  let ya := utcYear y + Int.fdiv m 12
  let mn := Int.emod m 12
  (daysFromCivil ya (mn + 1) 1 + (d - 1)) * 86400000

/-- `shiftDate` from the source: move a calendar date by whole days via
the `Date` object. -/
def shiftDate (date : DateFilter) (dayDelta : Int) : DateFilter :=
  if dayDelta = 0 then date
  else
    let ms := dateUTCms date.year date.month date.day
    let days := Int.fdiv ms 86400000 + dayDelta
    let c := civilFromDays days
    ⟨c.1, c.2.1 - 1, c.2.2⟩

/-- JS `%` (remainder truncated towards zero) on integers. -/
def jsRem (a b : Int) : Int := Int.tmod a b

/-- `convertMinutesToUtc` from the source: `(normalized minutes, day
shift)`. -/
def convertMinutesToUtc (localMinutes offsetMinutes : Int) : Int × Int :=
  let total := localMinutes + offsetMinutes
  let dayShift := Int.fdiv total 1440
  let normalized := jsRem (jsRem total 1440 + 1440) 1440
  (normalized, dayShift)

/-- `normalizeTimeFilterToUtc` from the source.  `timezoneOffsetMinutes`
is `none` when the request did not supply a finite offset. -/
def normalizeTimeFilterToUtc (filter : TimeFilter)
    (timezoneOffsetMinutes : Option Int) : TimeFilter :=
  match timezoneOffsetMinutes with
  | none => filter
  | some offset =>
    let next0 := filter
    let hasTime := filter.beforeMinutes.isSome || filter.afterMinutes.isSome
    let next1 :=
      match filter.rangeStart, filter.rangeEnd with
      | some rs, some re =>
        let startUtc := dateUTCms rs.year rs.month rs.day + offset * 60000
        let endUtc := dateUTCms re.year re.month (re.day + 1) + offset * 60000
        { next0 with utcDateStart := some startUtc, utcDateEnd := some endUtc,
                     rangeStart := none, rangeEnd := none }
      | _, _ => next0
    let stepBefore :
        TimeFilter × Option DateFilter → TimeFilter × Option DateFilter :=
      fun p =>
        match filter.beforeMinutes with
        | none => p
        | some b =>
          let conv := convertMinutesToUtc b offset
          ({ p.1 with beforeMinutes := some conv.1 },
           match p.2 with
           | none => none
           | some d => some (shiftDate d conv.2))
    let stepAfter :
        TimeFilter × Option DateFilter → TimeFilter × Option DateFilter :=
      fun p =>
        match filter.afterMinutes with
        | none => p
        | some a =>
          let conv := convertMinutesToUtc a offset
          ({ p.1 with afterMinutes := some conv.1 },
           match p.2 with
           | none => none
           | some d => some (shiftDate d conv.2))
    let p2 := stepAfter (stepBefore (next1, filter.date))
    let next2 :=
      match p2.2 with
      | some d => { p2.1 with date := some d }
      | none => p2.1
    match filter.date, hasTime, filter.rangeStart, filter.rangeEnd with
    | some d, false, none, none =>
      let startUtc := dateUTCms d.year d.month d.day + offset * 60000
      let endUtc := dateUTCms d.year d.month (d.day + 1) + offset * 60000
      { next2 with utcDateStart := some startUtc, utcDateEnd := some endUtc,
                   date := none }
    | _, _, _, _ => next2

theorem tmod_of_neg (a b : Int) : (-a).tmod b = -(a.tmod b) := by
  rw [Int.tmod_def, Int.tmod_def, Int.neg_tdiv]
  ring

theorem tmod_bounds (t : Int) : -1440 < t.tmod 1440 ∧ t.tmod 1440 < 1440 := by
  refine ⟨?_, Int.tmod_lt_of_pos t (by norm_num)⟩
  rcases le_or_lt 0 t with hpos | hneg
  · have := Int.tmod_nonneg 1440 hpos
    omega
  · have h1 : (-t).tmod 1440 < 1440 := Int.tmod_lt_of_pos (-t) (by norm_num)
    have h2 : t.tmod 1440 = -((-t).tmod 1440) := by
      rw [← tmod_of_neg, Int.neg_neg]
    omega

/-- The source's `((total % 1440) + 1440) % 1440` (JS truncated `%`)
equals the mathematical residue `total mod 1440`. -/
theorem jsNormalize_eq_emod (t : Int) :
    jsRem (jsRem t 1440 + 1440) 1440 = t % 1440 := by
  unfold jsRem
  have hb := tmod_bounds t
  have hnn : 0 ≤ t.tmod 1440 + 1440 := by omega
  rw [Int.tmod_eq_emod hnn (by norm_num)]
  have hdecomp := Int.tmod_add_tdiv t 1440
  set q := t.tdiv 1440 with hq
  have ht : t.tmod 1440 = t - 1440 * q := by omega
  rw [ht]
  omega

/-- Claim C8: for a minute-of-day value `m` in `0..1439` and any integer
offset, `convertMinutesToUtc` yields `(m + offset) mod 1440` (again in
`0..1439`) together with the day shift `⌊(m + offset) / 1440⌋`, which is
`-1`, `0` or `+1` for any real-world offset (`|offset| ≤ 1440`); the
normalizer shifts an anchored date by exactly that day shift before
recording the boundary; in particular `after 11pm` (1380 minutes) with
`timezoneOffsetMinutes = 300` yields 240 minutes with the anchor date
advanced by one day. -/
theorem claim_c8_minute_conversion (m off : Int) (h0 : 0 ≤ m) (h1 : m < 1440) :
    (convertMinutesToUtc m off).1 = (m + off) % 1440 ∧
    0 ≤ (convertMinutesToUtc m off).1 ∧ (convertMinutesToUtc m off).1 < 1440 ∧
    (convertMinutesToUtc m off).2 = Int.fdiv (m + off) 1440 ∧
    (-1440 ≤ off → off ≤ 1440 →
      -1 ≤ (convertMinutesToUtc m off).2 ∧ (convertMinutesToUtc m off).2 ≤ 1) ∧
    (∀ d : DateFilter,
      normalizeTimeFilterToUtc { date := some d, afterMinutes := some m } (some off) =
        { date := some (shiftDate d ((m + off).fdiv 1440)),
          afterMinutes := some ((m + off) % 1440) }) ∧
    normalizeTimeFilterToUtc { date := some ⟨2026, 0, 15⟩, afterMinutes := some 1380 }
        (some 300) =
      { date := some ⟨2026, 0, 16⟩, afterMinutes := some 240 } := by
  have hfst : (convertMinutesToUtc m off).1 = (m + off) % 1440 :=
    jsNormalize_eq_emod (m + off)
  have hfd : Int.fdiv (m + off) 1440 = (m + off) / 1440 :=
    Int.fdiv_eq_ediv (m + off) (by norm_num)
  refine ⟨hfst, ?_, ?_, rfl, ?_, ?_, by decide⟩
  · rw [hfst]
    exact Int.emod_nonneg _ (by norm_num)
  · rw [hfst]
    exact Int.emod_lt_of_pos _ (by norm_num)
  · intro hlo hhi
    constructor
    · show -1 ≤ Int.fdiv (m + off) 1440
      rw [hfd]
      have : 0 ≤ (m + off) + 1440 := by omega
      omega
    · show Int.fdiv (m + off) 1440 ≤ 1
      rw [hfd]
      omega
  · intro d
    show ({ date := some (shiftDate d (convertMinutesToUtc m off).2),
            afterMinutes := some (convertMinutesToUtc m off).1 } : TimeFilter) = _
    rw [hfst]
    rfl

/-- Witness for C8 at `m = 1380`, `off = 300`, anchored at Jan 15 2026. -/
theorem claim_c8_minute_conversion_witness :
    (0 : Int) ≤ 1380 ∧ (1380 : Int) < 1440 ∧
    (convertMinutesToUtc 1380 300).1 = 240 ∧
    (convertMinutesToUtc 1380 300).2 = 1 ∧
    normalizeTimeFilterToUtc { date := some ⟨2026, 0, 15⟩, afterMinutes := some 1380 }
        (some 300) =
      { date := some ⟨2026, 0, 16⟩, afterMinutes := some 240 } := by
  have h := claim_c8_minute_conversion 1380 300 (by decide) (by decide)
  exact ⟨by decide, by decide, by decide, by decide, h.2.2.2.2.2.2⟩

/-- Counterexample to C3 as stated: with offset 300, an `after 11pm`
filter normalizes to 240 minutes, and a second application shifts those
240 minutes again (to 540), so the normalizer is not idempotent on its
own output when a before/after minute bound is present. -/
theorem claim_c3_counterexample :
    normalizeTimeFilterToUtc
        (normalizeTimeFilterToUtc { afterMinutes := some 1380 } (some 300)) (some 300) ≠
      normalizeTimeFilterToUtc { afterMinutes := some 1380 } (some 300) := by
  decide

/-- Claim C3 as amended: `normalizeTimeFilterToUtc` is idempotent on its
own output for every filter carrying no before/after minute-of-day bound
(and not simultaneously a single date and a date range): absolute dates
and date ranges are converted to UTC instants once and never
reconverted.  Before/after minute values, by contrast, are re-shifted by
each application (see the counterexample). -/
theorem claim_c3_normalize_idempotent (filter : TimeFilter) (tz : Option Int)
    (hb : filter.beforeMinutes = none) (ha : filter.afterMinutes = none)
    (hnd : ¬(filter.date.isSome = true ∧ filter.rangeStart.isSome = true ∧
      filter.rangeEnd.isSome = true)) :
    normalizeTimeFilterToUtc (normalizeTimeFilterToUtc filter tz) tz =
      normalizeTimeFilterToUtc filter tz := by
  obtain ⟨d, rs, re, b, a, us, ue⟩ := filter
  dsimp only at hb ha hnd
  subst hb
  subst ha
  cases tz with
  | none => rfl
  | some o =>
    cases d with
    | none =>
      cases rs with
      | none => cases re with | none => rfl | some rev => rfl
      | some rsv => cases re with | none => rfl | some rev => rfl
    | some dv =>
      cases rs with
      | none => cases re with | none => rfl | some rev => rfl
      | some rsv =>
        cases re with
        | none => rfl
        | some rev => exact absurd ⟨rfl, rfl, rfl⟩ hnd

/-- Witness for the amended C3 at a concrete two-date range with offset
300. -/
theorem claim_c3_normalize_idempotent_witness :
    normalizeTimeFilterToUtc
        (normalizeTimeFilterToUtc
          { rangeStart := some ⟨2026, 0, 5⟩, rangeEnd := some ⟨2026, 0, 7⟩ }
          (some 300)) (some 300) =
      normalizeTimeFilterToUtc
        { rangeStart := some ⟨2026, 0, 5⟩, rangeEnd := some ⟨2026, 0, 7⟩ } (some 300) :=
  claim_c3_normalize_idempotent
    { rangeStart := some ⟨2026, 0, 5⟩, rangeEnd := some ⟨2026, 0, 7⟩ }
    (some 300) rfl rfl (by decide)

/-- Decimal digits of a natural number (fuel-structured so that the
kernel can evaluate it). -/
def natDigits : Nat → Nat → Str
  | 0, _ => []
  | f + 1, n => if n < 10 then [48 + n] else natDigits f (n / 10) ++ [48 + n % 10]

/-- Decimal string of a natural number (JS `${n}` for integral `n ≥ 0`). -/
def natToStr (n : Nat) : Str := natDigits (n + 1) n

/-- Decimal string of an integer (JS `${n}` for integral numbers). -/
def intToStr (n : Int) : Str :=
  if n < 0 then 45 :: natToStr (-n).toNat else natToStr n.toNat

/-- One shot row (`shots` table; `pins int`). -/
structure Shot where
  shot_number : Int
  pins : Option Int
deriving DecidableEq, Repr

/-- One frame row with its shots. -/
structure Frame where
  frame_number : Int
  is_strike : Bool
  is_spare : Bool
  shots : List Shot := []
deriving DecidableEq, Repr

/-- One game row, with nested frames and session linkage.  `played_at`
and `created_at` are the parsed epoch-millisecond instants of the stored
ISO timestamps (`none` for SQL `null`). -/
structure Game where
  id : Str
  session_id : Option Str := none
  game_name : Option Str := none
  player_name : Str := []
  total_score : Option Int := none
  played_at : Option Int := none
  created_at : Option Int := none
  frames : List Frame := []
deriving DecidableEq, Repr

/-- One session row. -/
structure BowlingSession where
  id : Str
  name : Option Str := none
  description : Option Str := none
  started_at : Option Int := none
  created_at : Option Int := none
deriving DecidableEq, Repr

/-- `OrderedGame` from the source: a game whose `game_name` has been
resolved to a non-empty display name. -/
structure OGame where
  id : Str
  session_id : Option Str
  game_name : Str
  player_name : Str
  total_score : Option Int
  played_at : Option Int
  created_at : Option Int
  frames : List Frame
deriving DecidableEq, Repr

/-- Stable insertion of `a` into `l`: `a` is placed before the first
element not strictly less than it. -/
def stableInsert (lt : α → α → Bool) (a : α) : List α → List α
  | [] => [a]
  | b :: l => if lt b a then b :: stableInsert lt a l else a :: b :: l

/-- Stable sort by a strict-order comparator — the model of JS
`Array.prototype.sort` with a consistent comparator (stable since
ES2019). -/
def sortStable (lt : α → α → Bool) : List α → List α
  | [] => []
  | a :: l => stableInsert lt a (sortStable lt l)

/-- `a.played_at ? Date.parse(a.played_at) : a.created_at ?
Date.parse(a.created_at) : 0` — the sort key of the game ordering. -/
def timeKeyG (g : Game) : Int := g.played_at.getD (g.created_at.getD 0)

/-- The same sort key on ordered games. -/
def timeKeyO (g : OGame) : Int := g.played_at.getD (g.created_at.getD 0)

/-- The comparator of the global game ordering. -/
def gameLt (a b : Game) : Bool := timeKeyG a < timeKeyG b

/-- The comparator used when re-sorting games inside one session
group. -/
def ogameLt (a b : OGame) : Bool := timeKeyO a < timeKeyO b

/-- Code-point lexicographic order on strings — the model of
`localeCompare` on the ASCII UUID ids it is applied to. -/
def strLt : Str → Str → Bool
  | [], [] => false
  | [], _ :: _ => true
  | _ :: _, [] => false
  | a :: as, b :: bs => if a < b then true else if b < a then false else strLt as bs

/-- `a.created_at ? Date.parse(a.created_at) : 0` — the session sort
key. -/
def sessionCreatedKey (s : BowlingSession) : Int := s.created_at.getD 0

/-- The session comparator: creation time, ties broken by id. -/
def sessionLt (a b : BowlingSession) : Bool :=
  sessionCreatedKey a < sessionCreatedKey b ||
    (sessionCreatedKey a == sessionCreatedKey b && strLt a.id b.id)

/-- Assign `Game N` fallback names along the globally ordered list
(`orderedGames` mapping in the source; `i` is the 0-based position). -/
def assignNames : Nat → List Game → List OGame
  | _, [] => []
  | i, g :: rest =>
    { id := g.id, session_id := g.session_id,
      game_name :=
        (let t := jsTrim (g.game_name.getD [])
         if t ≠ [] then t else strLit "Game " ++ natToStr (i + 1)),
      player_name := g.player_name, total_score := g.total_score,
      played_at := g.played_at, created_at := g.created_at,
      frames := g.frames } :: assignNames (i + 1) rest

/-- `orderedGames` from the source: the user's games sorted by
played-at (falling back to created-at), with display names filled in. -/
def orderedGamesOf (games : List Game) : List OGame :=
  assignNames 0 (sortStable gameLt games)

/-- Ids of sessions that have at least one loaded game.  (Session ids
are database UUIDs, so the source's truthiness test on them is
`isSome`.) -/
def sessionIdsWithGames (games : List Game) : List Str :=
  games.filterMap (·.session_id)

/-- `sessionsWithGames` from the source. -/
def sessionsWithGamesOf (sessions : List BowlingSession) (games : List Game) :
    List BowlingSession :=
  sessions.filter (fun s => (sessionIdsWithGames games).contains s.id)

/-- One row of the session label index. -/
structure SessionEntry where
  sessionId : Str
  sessionLabel : Str
  sessionName : Option Str
  createdAt : Option Int
deriving DecidableEq, Repr

/-- Label the ordered sessions: trimmed name when non-empty, otherwise
`Session K` with `K` the 1-based position (`i` is 0-based). -/
def labelSessions : Nat → List BowlingSession → List SessionEntry
  | _, [] => []
  | i, s :: rest =>
    (let t := jsTrim (s.name.getD [])
     { sessionId := s.id,
       sessionLabel := if t ≠ [] then t else strLit "Session " ++ natToStr (i + 1),
       sessionName := if t ≠ [] then some t else none,
       createdAt := s.created_at } : SessionEntry) :: labelSessions (i + 1) rest

/-- The `sessionIndex` of the source: sessions that own loaded games,
ordered by creation time (ties by id), labelled. -/
def sessionIndexOf (sessions : List BowlingSession) (games : List Game) :
    List SessionEntry :=
  labelSessions 0 (sortStable sessionLt (sessionsWithGamesOf sessions games))

/-- First-match association lookup (ids are unique, so this models the
source's `Map`). -/
def lookupAssoc (l : List (Str × α)) (k : Str) : Option α :=
  (l.find? (fun p => p.1 == k)).map (·.2)

/-- `sessionLabelById.get`. -/
def lookupSessionLabel (idx : List SessionEntry) (sid : Str) : Option Str :=
  (idx.find? (fun e => e.sessionId == sid)).map (·.sessionLabel)

/-- The question-derived filter fragments consumed by the scope
resolver (produced upstream by the pure filter-extraction functions). -/
structure FilterInput where
  sessionNumbers : List Nat := []
  sessionNameMatches : List Str := []
  hasSessionless : Bool := false
  selectedNumbers : List Int := []
  selectedFrames : List Int := []
  localTimeFilter : TimeFilter := {}
  timezoneOffsetMinutes : Option Int := none
deriving Repr

/-- `selectedSessionIds`: session-number matches against the lowercased
labels, plus case-insensitive session-name matches. -/
def selectedSessionIdsOf (f : FilterInput) (idx : List SessionEntry) : List Str :=
  (f.sessionNumbers.filterMap (fun n =>
    (idx.find? (fun e =>
      toLowerStr e.sessionLabel == strLit "session " ++ natToStr n)).map
        (·.sessionId))) ++
  (idx.filterMap (fun e =>
    match e.sessionName with
    | none => none
    | some nm =>
      if f.sessionNameMatches.any (fun q => toLowerStr q == toLowerStr nm) then
        some e.sessionId
      else none))

/-- `sessionFilteredGames`: restrict by session identity, or to
sessionless games, when a session filter is active. -/
def sessionFilteredGamesOf (ordered : List OGame) (selIds : List Str)
    (hasSessionless hasFilter : Bool) : List OGame :=
  if hasFilter then
    ordered.filter (fun g =>
      match g.session_id with
      | none => hasSessionless
      | some sid => selIds.contains sid)
  else ordered

/-- Append `g` to its group, preserving first-insertion key order (the
JS `Map` grouping). -/
def upsertGroup (key : Str) (g : OGame) :
    List (Str × List OGame) → List (Str × List OGame)
  | [] => [(key, [g])]
  | (k, l) :: rest =>
    if k == key then (k, l ++ [g]) :: rest else (k, l) :: upsertGroup key g rest

/-- Group the ordered games by session key (`"sessionless"` for games
without a session). -/
def groupBySession (l : List OGame) : List (Str × List OGame) :=
  l.foldl (fun acc g => upsertGroup (g.session_id.getD (strLit "sessionless")) g acc) []

/-- Per-group 1-based numbering of games. -/
def numberGroup : Nat → List OGame → List (Str × Int)
  | _, [] => []
  | i, g :: rest => (g.id, (i : Int) + 1) :: numberGroup (i + 1) rest

/-- `gameNumberById`: numbers assigned per session group over the
unfiltered ordering. -/
def gameNumbersOf (ordered : List OGame) : List (Str × Int) :=
  (groupBySession ordered).foldl
    (fun acc p => acc ++ numberGroup 0 (sortStable ogameLt p.2)) []

/-- `customNameById`: trimmed custom game names. -/
def customNamesOf (games : List Game) : List (Str × Str) :=
  games.filterMap (fun g =>
    let t := jsTrim (g.game_name.getD [])
    if t ≠ [] then some (g.id, t) else none)

/-- Per-group label assignment (`gameLabelById`): a custom name when
present, otherwise `Game N`, suffixed with the session label when no
session filter is active. -/
def labelGroup (sessionIndex : List SessionEntry) (customNames : List (Str × Str))
    (hasFilter : Bool) : Nat → List OGame → List (Str × Str)
  | _, [] => []
  | i, g :: rest =>
    let sessionLabel :=
      match g.session_id with
      | some sid => (lookupSessionLabel sessionIndex sid).getD (strLit "Session")
      | none => strLit "Sessionless games"
    let fallback :=
      if hasFilter then strLit "Game " ++ natToStr (i + 1)
      else strLit "Game " ++ natToStr (i + 1) ++ strLit " in " ++ sessionLabel
    let label :=
      match lookupAssoc customNames g.id with
      | some nm => nm
      | none => fallback
    (g.id, label) :: labelGroup sessionIndex customNames hasFilter (i + 1) rest

/-- `gameLabelById`: labels assigned per session group over the
unfiltered ordering. -/
def gameLabelsOf (ordered : List OGame) (sessionIndex : List SessionEntry)
    (customNames : List (Str × Str)) (hasFilter : Bool) : List (Str × Str) :=
  (groupBySession ordered).foldl
    (fun acc p => acc ++ labelGroup sessionIndex customNames hasFilter 0
      (sortStable ogameLt p.2)) []

/-- `selectedGames`: restrict by extracted game numbers (a game whose
number is missing gets `-1`, matching the source's `?? -1`). -/
def selectedGamesOf (sessionFiltered : List OGame) (numbers : List (Str × Int))
    (selectedNumbers : List Int) : List OGame :=
  if selectedNumbers.isEmpty then sessionFiltered
  else
    sessionFiltered.filter (fun g =>
      selectedNumbers.contains ((lookupAssoc numbers g.id).getD (-1)))

/-- Minutes within the UTC day of an epoch-millisecond instant
(`getUTCHours() * 60 + getUTCMinutes()`). -/
def playedMinutes (t : Int) : Int := Int.emod (Int.fdiv t 60000) 1440

/-- `applyTimeFilter` from the source. -/
def applyTimeFilter (games : List OGame) (filter : TimeFilter) : List OGame :=
  if filter.date.isNone && filter.beforeMinutes.isNone && filter.afterMinutes.isNone &&
      filter.utcDateStart.isNone && filter.utcDateEnd.isNone then
    games
  else
    games.filter (fun g =>
      match g.played_at with
      | none => false
      | some t =>
        let rangeOk :=
          match filter.utcDateStart, filter.utcDateEnd with
          | some s, some e => decide (s ≤ t) && decide (t < e)
          | _, _ =>
            match filter.date with
            | some d =>
              let c := civilFromDays (Int.fdiv t 86400000)
              decide (c.1 = d.year) && decide (c.2.1 - 1 = d.month) &&
                decide (c.2.2 = d.day)
            | none => true
        let m := playedMinutes t
        rangeOk &&
          (match filter.beforeMinutes with
           | some b => decide (m < b)
           | none => true) &&
          (match filter.afterMinutes with
           | some a => decide (m > a)
           | none => true))

/-- The request-scoped product of the scope resolver (the working sets
and the label index built in the POST handler). -/
structure ScopeResult where
  orderedGames : List OGame
  sessionIndex : List SessionEntry
  gameNumbers : List (Str × Int)
  gameLabels : List (Str × Str)
  hasSessionFilter : Bool
  sessionFilteredGames : List OGame
  selectedGames : List OGame
  offlineGames : List OGame
deriving Repr

/-- The scope-resolution pipeline of the POST handler: label index and
working sets from the loaded games/sessions and the extracted filters.
When the request carries a `gameId`, `games` is the singleton list the
handler loads for it. -/
def resolveScope (games : List Game) (sessions : List BowlingSession)
    (f : FilterInput) : ScopeResult :=
  let ordered := orderedGamesOf games
  let sIdx := sessionIndexOf sessions games
  let selIds := selectedSessionIdsOf f sIdx
  let hasFilter := !selIds.isEmpty || f.hasSessionless
  let sessionFiltered := sessionFilteredGamesOf ordered selIds f.hasSessionless hasFilter
  let numbers := gameNumbersOf ordered
  let labels := gameLabelsOf ordered sIdx (customNamesOf games) hasFilter
  let selected := selectedGamesOf sessionFiltered numbers f.selectedNumbers
  let timeFilter := normalizeTimeFilterToUtc f.localTimeFilter f.timezoneOffsetMinutes
  let offline := applyTimeFilter selected timeFilter
  { orderedGames := ordered, sessionIndex := sIdx, gameNumbers := numbers,
    gameLabels := labels, hasSessionFilter := hasFilter,
    sessionFilteredGames := sessionFiltered, selectedGames := selected,
    offlineGames := offline }

/-- Counterexample to C4 as stated: for a game without a custom name,
activating a session filter changes the label text itself — `Game 1`
with a `session 1` filter active versus `Game 1 in Session 1` without
filters — so the label is not identical across filter combinations. -/
theorem claim_c4_counterexample :
    lookupAssoc
        (resolveScope
          [{ id := strLit "g1", session_id := some (strLit "s1"),
             total_score := some 100, played_at := some 0, created_at := some 0 }]
          [{ id := strLit "s1", created_at := some 0 }]
          { sessionNumbers := [1] }).gameLabels (strLit "g1") =
      some (strLit "Game 1") ∧
    lookupAssoc
        (resolveScope
          [{ id := strLit "g1", session_id := some (strLit "s1"),
             total_score := some 100, played_at := some 0, created_at := some 0 }]
          [{ id := strLit "s1", created_at := some 0 }]
          {}).gameLabels (strLit "g1") =
      some (strLit "Game 1 in Session 1") ∧
    some (strLit "Game 1") ≠ some (strLit "Game 1 in Session 1") := by
  refine ⟨by decide, by decide, by decide⟩

/-- Claim C4 as amended: the game-number assignment (which game a label
`Game N` denotes) is computed once over the unfiltered ordering and is
identical for every pair of filter combinations, without exception; the
label text is likewise independent of the game-number and time filters,
but it depends on whether a session filter is active at all (an active
session filter drops the ` in <session>` suffix — see the
counterexample), so the text agrees between two filter combinations
whenever session-filter activeness agrees. -/
theorem claim_c4_label_stability (games : List Game) (sessions : List BowlingSession)
    (f1 f2 : FilterInput) :
    (resolveScope games sessions f1).gameNumbers =
      (resolveScope games sessions f2).gameNumbers ∧
    ((resolveScope games sessions f1).hasSessionFilter =
        (resolveScope games sessions f2).hasSessionFilter →
      (resolveScope games sessions f1).gameLabels =
        (resolveScope games sessions f2).gameLabels) := by
  refine ⟨rfl, ?_⟩
  intro h
  dsimp only [resolveScope] at h ⊢
  rw [h]

/-- Witness for the amended C4: a game-number filter and a time filter
do not change the label index. -/
theorem claim_c4_label_stability_witness :
    (resolveScope
        [{ id := strLit "g1", session_id := some (strLit "s1"),
           total_score := some 100, played_at := some 0, created_at := some 0 }]
        [{ id := strLit "s1", created_at := some 0 }]
        { selectedNumbers := [2],
          localTimeFilter := { beforeMinutes := some 300 } }).gameNumbers =
      (resolveScope
        [{ id := strLit "g1", session_id := some (strLit "s1"),
           total_score := some 100, played_at := some 0, created_at := some 0 }]
        [{ id := strLit "s1", created_at := some 0 }]
        {}).gameNumbers ∧
    (resolveScope
        [{ id := strLit "g1", session_id := some (strLit "s1"),
           total_score := some 100, played_at := some 0, created_at := some 0 }]
        [{ id := strLit "s1", created_at := some 0 }]
        { selectedNumbers := [2],
          localTimeFilter := { beforeMinutes := some 300 } }).gameLabels =
      (resolveScope
        [{ id := strLit "g1", session_id := some (strLit "s1"),
           total_score := some 100, played_at := some 0, created_at := some 0 }]
        [{ id := strLit "s1", created_at := some 0 }]
        {}).gameLabels :=
  ⟨(claim_c4_label_stability
      [{ id := strLit "g1", session_id := some (strLit "s1"),
         total_score := some 100, played_at := some 0, created_at := some 0 }]
      [{ id := strLit "s1", created_at := some 0 }]
      { selectedNumbers := [2],
        localTimeFilter := { beforeMinutes := some 300 } } {}).1,
    (claim_c4_label_stability
      [{ id := strLit "g1", session_id := some (strLit "s1"),
         total_score := some 100, played_at := some 0, created_at := some 0 }]
      [{ id := strLit "s1", created_at := some 0 }]
      { selectedNumbers := [2],
        localTimeFilter := { beforeMinutes := some 300 } } {}).2 (by decide)⟩

theorem labelSessions_length (k : Nat) (l : List BowlingSession) :
    (labelSessions k l).length = l.length := by
  induction l generalizing k with
  | nil => rfl
  | cons s rest ih => simp [labelSessions, ih]

theorem labelSessions_get (k : Nat) (l : List BowlingSession) (i : Nat)
    (h : i < l.length) (h2 : i < (labelSessions k l).length) :
    (labelSessions k l).get ⟨i, h2⟩ =
      (let s := l.get ⟨i, h⟩
       let t := jsTrim (s.name.getD [])
       { sessionId := s.id,
         sessionLabel := if t ≠ [] then t else strLit "Session " ++ natToStr (k + i + 1),
         sessionName := if t ≠ [] then some t else none,
         createdAt := s.created_at }) := by
  induction l generalizing k i with
  | nil => exact absurd h (by simp)
  | cons s rest ih =>
    cases i with
    | zero => rfl
    | succ j =>
      have hj : j < rest.length := by simpa using h
      have hj2 : j < (labelSessions (k + 1) rest).length := by
        rw [labelSessions_length]; exact hj
      have := ih (k + 1) j hj hj2
      simp only [labelSessions, List.get_cons_succ]
      rw [this]
      have harith : k + 1 + j + 1 = k + (j + 1) + 1 := by omega
      simp [harith]

/-- Claim C5 as amended: in the session label index, the `i`-th entry
(over the owner's sessions **that contain at least one loaded game**,
ordered by creation time with ties broken by id) is labelled with the
session's trimmed name when non-empty, and `Session (i+1)` otherwise.
The position is counted among the sessions with games, not among all of
the owner's sessions — see the counterexample. -/
theorem claim_c5_session_labels (sessions : List BowlingSession) (games : List Game)
    (i : Nat) (h : i < (sortStable sessionLt (sessionsWithGamesOf sessions games)).length) :
    ∃ h2 : i < (sessionIndexOf sessions games).length,
      ((sessionIndexOf sessions games).get ⟨i, h2⟩).sessionLabel =
        (let s := (sortStable sessionLt (sessionsWithGamesOf sessions games)).get ⟨i, h⟩
         let t := jsTrim (s.name.getD [])
         if t ≠ [] then t else strLit "Session " ++ natToStr (i + 1)) ∧
      ((sessionIndexOf sessions games).get ⟨i, h2⟩).sessionId =
        ((sortStable sessionLt (sessionsWithGamesOf sessions games)).get ⟨i, h⟩).id := by
  have h2 : i < (sessionIndexOf sessions games).length := by
    simp only [sessionIndexOf, labelSessions_length]; exact h
  refine ⟨h2, ?_, ?_⟩
  · simp only [sessionIndexOf]
    rw [labelSessions_get 0 _ i h]
    simp
  · simp only [sessionIndexOf]
    rw [labelSessions_get 0 _ i h]

/-- Witness for the amended C5 at a concrete one-session collection. -/
theorem claim_c5_session_labels_witness :
    ∃ h2 : 0 < (sessionIndexOf
        [{ id := strLit "sB", created_at := some 10 }]
        [{ id := strLit "g1", session_id := some (strLit "sB"),
           played_at := some 5 }]).length,
      ((sessionIndexOf
        [{ id := strLit "sB", created_at := some 10 }]
        [{ id := strLit "g1", session_id := some (strLit "sB"),
           played_at := some 5 }]).get ⟨0, h2⟩).sessionLabel =
        strLit "Session 1" := by
  obtain ⟨h2, hlabel, -⟩ := claim_c5_session_labels
    [{ id := strLit "sB", created_at := some 10 }]
    [{ id := strLit "g1", session_id := some (strLit "sB"), played_at := some 5 }]
    0 (by decide)
  exact ⟨h2, by rw [hlabel]; decide⟩

/-- Modelled from the spec (for comparison only): "a label is the
trimmed name if non-empty, else `Session K` where K is the session's
1-based position among the owner's sessions ordered by creation time" —
position taken among **all** of the owner's sessions. -/
def claimSessionLabelSpec (sessions : List BowlingSession) (s : BowlingSession) : Str :=
  let t := jsTrim (s.name.getD [])
  if t ≠ [] then t
  else
    strLit "Session " ++
      natToStr ((sortStable sessionLt sessions).findIdx (fun x => x.id == s.id) + 1)

/-- Counterexample to C5 as stated: with an older session that has no
loaded games, an unnamed newer session is the owner's *second* session
by creation time (so the claim says `Session 2`), but the code labels it
`Session 1`, because it numbers only the sessions that have games. -/
theorem claim_c5_counterexample :
    lookupSessionLabel
        (sessionIndexOf
          [{ id := strLit "sA", created_at := some 0 },
           { id := strLit "sB", created_at := some 10 }]
          [{ id := strLit "g1", session_id := some (strLit "sB"),
             played_at := some 5 }])
        (strLit "sB") = some (strLit "Session 1") ∧
    claimSessionLabelSpec
        [{ id := strLit "sA", created_at := some 0 },
         { id := strLit "sB", created_at := some 10 }]
        { id := strLit "sB", created_at := some 10 } = strLit "Session 2" ∧
    lookupSessionLabel
        (sessionIndexOf
          [{ id := strLit "sA", created_at := some 0 },
           { id := strLit "sB", created_at := some 10 }]
          [{ id := strLit "g1", session_id := some (strLit "sB"),
             played_at := some 5 }])
        (strLit "sB") ≠
      some (claimSessionLabelSpec
        [{ id := strLit "sA", created_at := some 0 },
         { id := strLit "sB", created_at := some 10 }]
        { id := strLit "sB", created_at := some 10 }) := by
  refine ⟨by decide, by decide, by decide⟩

theorem mem_of_mem_applyTimeFilter {games : List OGame} {tf : TimeFilter} {x : OGame}
    (h : x ∈ applyTimeFilter games tf) : x ∈ games := by
  unfold applyTimeFilter at h
  split at h
  · exact h
  · exact (List.mem_filter.mp h).1

theorem mem_of_mem_sessionFiltered {ordered : List OGame} {selIds : List Str}
    {hs hf : Bool} {x : OGame}
    (h : x ∈ sessionFilteredGamesOf ordered selIds hs hf) : x ∈ ordered := by
  unfold sessionFilteredGamesOf at h
  split at h
  · exact (List.mem_filter.mp h).1
  · exact h

theorem mem_of_mem_selectedGames {sf : List OGame} {numbers : List (Str × Int)}
    {sel : List Int} {x : OGame}
    (h : x ∈ selectedGamesOf sf numbers sel) : x ∈ sf := by
  unfold selectedGamesOf at h
  split at h
  · exact h
  · exact (List.mem_filter.mp h).1

/-- The ordered form of a single loaded game (the `gameId` path loads
exactly one game, which becomes `Game 1`). -/
def singleOrderedGame (g : Game) : OGame :=
  { id := g.id, session_id := g.session_id,
    game_name :=
      (let t := jsTrim (g.game_name.getD [])
       if t ≠ [] then t else strLit "Game " ++ natToStr 1),
    player_name := g.player_name, total_score := g.total_score,
    played_at := g.played_at, created_at := g.created_at,
    frames := g.frames }

/-- Claim C6 as amended: when the request carries a `gameId`, the base
collection is exactly the one loaded game, and every game in the working
set consumed by any tier (the selected games of the online tiers and the
time-filtered games of the offline tier) is that single game — but the
session, game-number and time filters still apply inside this singleton
collection and may exclude it, so the working set can also be empty (see
the counterexample; the filters are not bypassed). -/
theorem claim_c6_gameId_scope (g : Game) (sessions : List BowlingSession)
    (f : FilterInput) (x : OGame)
    (hx : x ∈ (resolveScope [g] sessions f).offlineGames ∨
          x ∈ (resolveScope [g] sessions f).selectedGames) :
    x = singleOrderedGame g := by
  have hsel : x ∈ (resolveScope [g] sessions f).selectedGames := by
    cases hx with
    | inl h => exact mem_of_mem_applyTimeFilter h
    | inr h => exact h
  have hord : x ∈ orderedGamesOf [g] :=
    mem_of_mem_sessionFiltered (mem_of_mem_selectedGames hsel)
  have : orderedGamesOf [g] = [singleOrderedGame g] := rfl
  rw [this] at hord
  simpa using hord

/-- Witness for the amended C6 at a concrete game and empty filter. -/
theorem claim_c6_gameId_scope_witness :
    singleOrderedGame
        { id := strLit "g1", total_score := some 100, played_at := some 0 } =
      singleOrderedGame
        { id := strLit "g1", total_score := some 100, played_at := some 0 } :=
  claim_c6_gameId_scope
    { id := strLit "g1", total_score := some 100, played_at := some 0 } [] {}
    (singleOrderedGame
      { id := strLit "g1", total_score := some 100, played_at := some 0 })
    (Or.inr (by decide))

/-- Counterexample to C6 as stated: with a `gameId` collection of one
game and the question mentioning `game 2`, the working set of every tier
is empty, not the single game — game-number filters are applied, not
bypassed. -/
theorem claim_c6_counterexample :
    (resolveScope
        [{ id := strLit "g1", total_score := some 100, played_at := some 0 }]
        [] { selectedNumbers := [2] }).selectedGames = [] ∧
    (resolveScope
        [{ id := strLit "g1", total_score := some 100, played_at := some 0 }]
        [] { selectedNumbers := [2] }).offlineGames = [] ∧
    (resolveScope
        [{ id := strLit "g1", total_score := some 100, played_at := some 0 }]
        [] {}).selectedGames =
      [singleOrderedGame
        { id := strLit "g1", total_score := some 100, played_at := some 0 }] := by
  refine ⟨by decide, by decide, by decide⟩

/-- Claim C10: a game whose `played_at` is null is excluded by
`applyTimeFilter` whenever the filter has at least one active constraint
(an absolute date, a UTC date range, or a before/after minute-of-day
bound). -/
theorem claim_c10_null_played_at_excluded (games : List OGame) (filter : TimeFilter)
    (g : OGame)
    (hactive : filter.date.isSome = true ∨
      (filter.utcDateStart.isSome = true ∧ filter.utcDateEnd.isSome = true) ∨
      filter.beforeMinutes.isSome = true ∨ filter.afterMinutes.isSome = true)
    (hmem : g ∈ applyTimeFilter games filter) :
    g.played_at ≠ none := by
  unfold applyTimeFilter at hmem
  split at hmem
  case isTrue hcond =>
    simp only [Bool.and_eq_true, Option.isNone_iff_eq_none] at hcond
    obtain ⟨⟨⟨⟨hd, hb⟩, ha⟩, hus⟩, hue⟩ := hcond
    rcases hactive with hx | ⟨hx, _⟩ | hx | hx <;>
      simp_all [Option.isSome_iff_exists]
  case isFalse =>
    have hpred := (List.mem_filter.mp hmem).2
    intro hnone
    rw [hnone] at hpred
    exact Bool.noConfusion hpred

/-- Witness for C10: a `before 7pm`-style filter excludes a game with no
timestamp. -/
theorem claim_c10_null_played_at_excluded_witness :
    ({ id := strLit "gt", total_score := some 150, played_at := some 0,
       session_id := none, game_name := strLit "Game 1", player_name := [],
       created_at := none, frames := [] } : OGame).played_at ≠ none :=
  claim_c10_null_played_at_excluded
    [{ id := strLit "gn", session_id := none, game_name := strLit "Game 2",
       player_name := [], total_score := some 90, played_at := none,
       created_at := none, frames := [] },
     { id := strLit "gt", total_score := some 150, played_at := some 0,
       session_id := none, game_name := strLit "Game 1", player_name := [],
       created_at := none, frames := [] }]
    { beforeMinutes := some 1140 }
    _ (Or.inr (Or.inr (Or.inl rfl))) (by decide)

/-- `Number(x.toFixed(2))`: round to 2 decimals, ties away from zero
upwards (ECMAScript picks the larger candidate). -/
def round2 (x : ℚ) : ℚ := (Int.floor (x * 100 + 1 / 2) : ℚ) / 100

/-- `Number(x.toFixed(3))`: round to 3 decimals. -/
def round3 (x : ℚ) : ℚ := (Int.floor (x * 1000 + 1 / 2) : ℚ) / 1000

/-- Fuel-bounded floor of the base-2 logarithm of a natural number
(`log2fuel n n` is exact for `n ≥ 1`). -/
def log2fuel : Nat → Nat → Nat
  | 0, _ => 0
  | f + 1, n => if n ≥ 2 then 1 + log2fuel f (n / 2) else 0

/-- Smallest `e ≥ 1` with `q * 2 ^ e ≥ 1`, for `0 < q < 1`
(fuel-bounded; fuel 1200 covers the whole binary64 range). -/
def ebelow : Nat → ℚ → Nat
  | 0, _ => 0
  | f + 1, q => if q * 2 ≥ 1 then 1 else 1 + ebelow f (q * 2)

/-- Round a rational to the nearest integer, ties to even (the IEEE-754
default rounding applied to a scaled significand). -/
def roundHalfEven (m : ℚ) : Int :=
  let f := Int.floor m
  let r := m - (f : ℚ)
  if r < 1 / 2 then f
  else if r > 1 / 2 then f + 1
  else if f % 2 = 0 then f else f + 1

/-- The IEEE-754 binary64 value nearest to `q` (round to nearest, ties
to even), as an exact rational: the significand scaled to
`[2 ^ 52, 2 ^ 53)` is rounded to an integer.  Exact on the normal
finite range; the quotients of the aggregator (scores and counts over
counts) never reach the overflow or subnormal thresholds. -/
def dblRound (q : ℚ) : ℚ :=
  if q = 0 then 0
  else
    let a := if q < 0 then -q else q
    let e : Int :=
      if a ≥ 1 then ((log2fuel (Int.floor a).toNat (Int.floor a).toNat : Nat) : Int)
      else -((ebelow 1200 a : Nat) : Int)
    let k := e - 52
    let m : ℚ := if k ≥ 0 then a / (2 ^ k.toNat : ℚ) else a * (2 ^ (-k).toNat : ℚ)
    let n := roundHalfEven m
    let v : ℚ := if k ≥ 0 then (n : ℚ) * (2 ^ k.toNat : ℚ)
      else (n : ℚ) / (2 ^ (-k).toNat : ℚ)
    if q < 0 then -v else v

/-- A JavaScript division of two exactly-represented numbers: the
binary64 value nearest to the true quotient. -/
def jsDiv (a b : ℚ) : ℚ := dblRound (a / b)

/-- A per-frame entry of `summarizeGames`. -/
structure PerFrameRate where
  frame : Int
  frames : Nat
  strikeRate : ℚ
  spareRate : ℚ
deriving DecidableEq, Repr

/-- The summary record produced by `summarizeGames`. -/
structure GamesSummary where
  totalGames : Nat
  scoredGames : Nat
  averageScore : Option ℚ
  totalFrames : Nat
  strikeRate : ℚ
  spareRate : ℚ
  perFrame : List PerFrameRate
deriving DecidableEq, Repr

/-- The `FrameAggregate` record of `summarizeFrames`. -/
structure FrameAggregate where
  frame : Int
  frames : Nat
  averagePins : Option ℚ
  strikeRate : ℚ
  spareRate : ℚ
deriving DecidableEq, Repr

/-- Per-frame counters of `summarizeGames`. -/
structure FrameCounts where
  frames : Nat
  strikes : Nat
  spares : Nat
deriving DecidableEq, Repr

/-- Per-frame counters of `summarizeFrames`. -/
structure PinCounts where
  frames : Nat
  pinTotal : Int
  strikes : Nat
  spares : Nat
deriving DecidableEq, Repr

/-- Update-or-append an entry keyed by frame number, preserving
first-insertion order (the JS `Map`). -/
def upsertStat (key : Int) (upd : α → α) (init : α) :
    List (Int × α) → List (Int × α)
  | [] => [(key, upd init)]
  | (k, v) :: rest =>
    if k == key then (k, upd v) :: rest else (k, v) :: upsertStat key upd init rest

/-- One frame folded into the `summarizeGames` counters. -/
def bumpGameFrame (f : Frame) (e : FrameCounts) : FrameCounts :=
  { frames := e.frames + 1,
    strikes := e.strikes + (if f.is_strike then 1 else 0),
    spares := e.spares + (if f.is_spare then 1 else 0) }

/-- The `frameStats` map of `summarizeGames`. -/
def gameFrameStats (frames : List Frame) : List (Int × FrameCounts) :=
  frames.foldl
    (fun acc f => upsertStat f.frame_number (bumpGameFrame f) ⟨0, 0, 0⟩ acc) []

/-- All frames of a game collection, in order (`flatMap`). -/
def flatFrames (games : List OGame) : List Frame := (games.map (·.frames)).flatten

/-- `summarizeGames` from the source (each quotient is a binary64
division, modelled exactly by `jsDiv`; see the header notes). -/
def summarizeGames (games : List OGame) : GamesSummary :=
  let totalGames := games.length
  let totalScore : Int := games.foldl (fun s g => s + g.total_score.getD 0) 0
  let scoredGames := (games.filter (fun g => g.total_score.isSome)).length
  let averageScore : Option ℚ :=
    if scoredGames > 0 then some (round2 (jsDiv (totalScore : ℚ) (scoredGames : ℚ)))
    else none
  let frames := flatFrames games
  let totalFrames := frames.length
  let strikeFrames := (frames.filter (·.is_strike)).length
  let spareFrames := (frames.filter (·.is_spare)).length
  let perFrame :=
    (sortStable (fun (a b : Int × FrameCounts) => a.1 < b.1)
        (gameFrameStats frames)).map
      (fun p =>
        ({ frame := p.1,
           frames := p.2.frames,
           strikeRate :=
             if p.2.frames > 0 then round3 (jsDiv (p.2.strikes : ℚ) (p.2.frames : ℚ))
             else 0,
           spareRate :=
             if p.2.frames > 0 then round3 (jsDiv (p.2.spares : ℚ) (p.2.frames : ℚ))
             else 0 } : PerFrameRate))
  { totalGames := totalGames, scoredGames := scoredGames,
    averageScore := averageScore, totalFrames := totalFrames,
    strikeRate :=
      if totalFrames > 0 then round3 (jsDiv (strikeFrames : ℚ) (totalFrames : ℚ)) else 0,
    spareRate :=
      if totalFrames > 0 then round3 (jsDiv (spareFrames : ℚ) (totalFrames : ℚ)) else 0,
    perFrame := perFrame }

/-- One frame folded into the `summarizeFrames` counters: pins count
only when the frame has at least one known shot. -/
def bumpPinFrame (f : Frame) (e : PinCounts) : PinCounts :=
  let shotPins := f.shots.filterMap (·.pins)
  let framePins := shotPins.foldl (· + ·) 0
  { frames := e.frames + (if shotPins.length > 0 then 1 else 0),
    pinTotal := e.pinTotal + (if shotPins.length > 0 then framePins else 0),
    strikes := e.strikes + (if f.is_strike then 1 else 0),
    spares := e.spares + (if f.is_spare then 1 else 0) }

/-- The `frameMap` of `summarizeFrames`. -/
def frameSummaryStats (games : List OGame) : List (Int × PinCounts) :=
  games.foldl
    (fun acc g =>
      g.frames.foldl
        (fun acc2 f => upsertStat f.frame_number (bumpPinFrame f) ⟨0, 0, 0, 0⟩ acc2)
        acc)
    []

/-- `summarizeFrames` from the source. -/
def summarizeFrames (games : List OGame) : List FrameAggregate :=
  (sortStable (fun (a b : Int × PinCounts) => a.1 < b.1)
      (frameSummaryStats games)).map
    (fun p =>
      ({ frame := p.1,
         frames := p.2.frames,
         averagePins :=
           if p.2.frames > 0 then some (round2 (jsDiv (p.2.pinTotal : ℚ) (p.2.frames : ℚ)))
           else none,
         strikeRate :=
           if p.2.frames > 0 then round3 (jsDiv (p.2.strikes : ℚ) (p.2.frames : ℚ)) else 0,
         spareRate :=
           if p.2.frames > 0 then round3 (jsDiv (p.2.spares : ℚ) (p.2.frames : ℚ)) else 0 }
       : FrameAggregate))

theorem mem_stableInsert {lt : α → α → Bool} {a x : α} {l : List α} :
    x ∈ stableInsert lt a l ↔ x = a ∨ x ∈ l := by
  induction l with
  | nil => simp [stableInsert]
  | cons b rest ih =>
    unfold stableInsert
    split
    · simp only [List.mem_cons, ih]
      tauto
    · exact List.mem_cons

theorem mem_sortStable {lt : α → α → Bool} {x : α} {l : List α} :
    x ∈ sortStable lt l ↔ x ∈ l := by
  induction l with
  | nil => simp [sortStable]
  | cons a rest ih =>
    unfold sortStable
    rw [mem_stableInsert]
    simp [ih]

theorem score_fold_eq (games : List OGame) (c : Int) :
    games.foldl (fun s g => s + g.total_score.getD 0) c =
      c + (games.filterMap (·.total_score)).sum := by
  induction games generalizing c with
  | nil => simp
  | cons g rest ih =>
    cases hg : g.total_score with
    | none => simp [List.filterMap_cons, hg, List.foldl_cons, ih c]
    | some v =>
      simp only [List.filterMap_cons, hg, List.foldl_cons, List.sum_cons,
        Option.getD_some, ih (c + v)]
      ring

theorem ebelow_succ (f : Nat) (q : ℚ) :
    ebelow (f + 1) q = if q * 2 ≥ 1 then 1 else 1 + ebelow f (q * 2) := rfl

theorem roundHalfEven_eq_floor (m : ℚ) (z : Int) (hlo : (z : ℚ) ≤ m)
    (hhi : m < (z : ℚ) + 1 / 2) : roundHalfEven m = z := by
  have hf : Int.floor m = z := by
    rw [Int.floor_eq_iff]
    exact ⟨hlo, by linarith⟩
  unfold roundHalfEven
  rw [hf, if_pos (by linarith)]

theorem roundHalfEven_int (z : Int) (m : ℚ) (hm : m = (z : ℚ)) :
    roundHalfEven m = z :=
  roundHalfEven_eq_floor m z (le_of_eq hm.symm) (by rw [hm]; norm_num)

theorem dblRound_pos_small (q : ℚ) (h0 : 0 < q) (h1 : q < 1) (e : Nat)
    (he : ebelow 1200 q = e) (n : Int)
    (hn : roundHalfEven (q * 2 ^ (52 + e)) = n) :
    dblRound q = (n : ℚ) / 2 ^ (52 + e) := by
  unfold dblRound
  have ha : (if q < 0 then -q else q) = q := if_neg (not_lt.mpr h0.le)
  rw [ha]
  dsimp only
  rw [if_neg (not_le.mpr h1), he]
  rw [if_neg (show ¬(-(e : Int) - 52 ≥ 0) by omega)]
  rw [show (-(-(e : Int) - 52)).toNat = 52 + e by omega]
  rw [if_neg (show ¬(-(e : Int) - 52 ≥ 0) by omega)]
  rw [hn]
  rw [if_neg (ne_of_gt h0), if_neg (not_lt.mpr h0.le)]

theorem dblRound_pos_big (q : ℚ) (h1 : 1 ≤ q) (e : Nat)
    (he : log2fuel (Int.floor q).toNat (Int.floor q).toNat = e) (hk : e < 52)
    (n : Int) (hn : roundHalfEven (q * 2 ^ (52 - e)) = n) :
    dblRound q = (n : ℚ) / 2 ^ (52 - e) := by
  unfold dblRound
  have h0 : 0 < q := lt_of_lt_of_le one_pos h1
  have ha : (if q < 0 then -q else q) = q := if_neg (not_lt.mpr h0.le)
  rw [ha]
  dsimp only
  rw [if_pos h1, he]
  rw [if_neg (show ¬((e : Int) - 52 ≥ 0) by omega)]
  rw [show (-((e : Int) - 52)).toNat = 52 - e by omega]
  rw [if_neg (show ¬((e : Int) - 52 ≥ 0) by omega)]
  rw [hn]
  rw [if_neg (ne_of_gt h0), if_neg (not_lt.mpr h0.le)]

theorem dblRound_3_40 :
    dblRound ((3 : ℚ) / 40) = 5404319552844595 / 72057594037927936 := by
  have he : ebelow 1200 ((3 : ℚ) / 40) = 4 := by
    rw [show (1200 : Nat) = 1199 + 1 from rfl, ebelow_succ, if_neg (by norm_num),
      show (1199 : Nat) = 1198 + 1 from rfl, ebelow_succ, if_neg (by norm_num),
      show (1198 : Nat) = 1197 + 1 from rfl, ebelow_succ, if_neg (by norm_num),
      show (1197 : Nat) = 1196 + 1 from rfl, ebelow_succ, if_pos (by norm_num)]
  have h := dblRound_pos_small ((3 : ℚ) / 40) (by norm_num) (by norm_num) 4
    he 5404319552844595
    (roundHalfEven_eq_floor _ _ (by norm_num) (by norm_num))
  rw [h]
  norm_num

theorem dblRound_200 : dblRound (200 : ℚ) = 200 := by
  have hf : (Int.floor (200 : ℚ)).toNat = 200 := by
    rw [show Int.floor (200 : ℚ) = 200 from by norm_num]
    rfl
  have h := dblRound_pos_big (200 : ℚ) (by norm_num) 7
    (by rw [hf]; decide) (by decide) 7036874417766400
    (roundHalfEven_int _ _ (by norm_num))
  rw [h]
  norm_num

theorem summarizeGames_avg (gs : List OGame) :
    (summarizeGames gs).averageScore =
      if (gs.filter (fun g => g.total_score.isSome)).length = 0 then none
      else some (round2 (jsDiv (((gs.filterMap (·.total_score)).sum : Int) : ℚ)
        ((gs.filter (fun g => g.total_score.isSome)).length : ℚ))) := by
  show (if (gs.filter (fun g => g.total_score.isSome)).length > 0
        then some (round2 (jsDiv
          (((gs.foldl (fun s g => s + g.total_score.getD 0) 0 : Int)) : ℚ)
          ((gs.filter (fun g => g.total_score.isSome)).length : ℚ)))
        else none) = _
  rw [score_fold_eq gs 0, Int.zero_add]
  rcases Nat.eq_zero_or_pos (gs.filter (fun g => g.total_score.isSome)).length
    with h | h
  · simp [h]
  · rw [if_pos h, if_neg (by omega)]

/-- Claim C9 as amended: `averageScore` is the binary64 quotient of the
sum of the non-null scores by the number of scored games, rounded to 2
decimals, and `null` exactly when no game has a score; overall and
per-frame rates are binary64 quotients of counts by the applicable frame
count rounded to 3 decimals, and an empty denominator yields rate 0 (not
null); three games scored 200, 180 and 220 average exactly 200 (600/3 is
exactly representable).  The counterexample forces the binary64 reading:
the source divides in double precision before `toFixed`, which differs
from exact-quotient rounding at ties such as 3/40. -/
theorem claim_c9_aggregator (games : List OGame) :
    ((summarizeGames games).averageScore =
      if (games.filter (fun g => g.total_score.isSome)).length = 0 then none
      else some (round2 (jsDiv (((games.filterMap (·.total_score)).sum : Int) : ℚ)
        ((games.filter (fun g => g.total_score.isSome)).length : ℚ)))) ∧
    ((summarizeGames games).averageScore = none ↔ ∀ g ∈ games, g.total_score = none) ∧
    ((summarizeGames games).totalFrames = 0 →
      (summarizeGames games).strikeRate = 0 ∧ (summarizeGames games).spareRate = 0) ∧
    ((summarizeGames games).totalFrames ≠ 0 →
      (summarizeGames games).strikeRate =
        round3 (jsDiv ((((flatFrames games).filter (·.is_strike)).length : ℚ))
          (((flatFrames games).length : ℚ))) ∧
      (summarizeGames games).spareRate =
        round3 (jsDiv ((((flatFrames games).filter (·.is_spare)).length : ℚ))
          (((flatFrames games).length : ℚ)))) ∧
    (∀ e ∈ summarizeFrames games, ∃ c : PinCounts,
      (e.frame, c) ∈ frameSummaryStats games ∧ e.frames = c.frames ∧
      (c.frames = 0 →
        e.strikeRate = 0 ∧ e.spareRate = 0 ∧ e.averagePins = none) ∧
      (c.frames ≠ 0 →
        e.strikeRate = round3 (jsDiv ((c.strikes : ℚ)) ((c.frames : ℚ))) ∧
        e.spareRate = round3 (jsDiv ((c.spares : ℚ)) ((c.frames : ℚ))) ∧
        e.averagePins = some (round2 (jsDiv ((c.pinTotal : ℚ)) ((c.frames : ℚ)))))) ∧
    (summarizeGames
        [{ id := strLit "a", session_id := none, game_name := strLit "Game 1",
           player_name := [], total_score := some 200, played_at := none,
           created_at := none, frames := [] },
         { id := strLit "b", session_id := none, game_name := strLit "Game 2",
           player_name := [], total_score := some 180, played_at := none,
           created_at := none, frames := [] },
         { id := strLit "c", session_id := none, game_name := strLit "Game 3",
           player_name := [], total_score := some 220, played_at := none,
           created_at := none, frames := [] }]).averageScore = some 200 := by
  refine ⟨summarizeGames_avg games, ?_, ?_, ?_, ?_, ?_⟩
  · rw [summarizeGames_avg games]
    constructor
    · intro h
      by_cases hz : (games.filter (fun g => g.total_score.isSome)).length = 0
      · intro g hg
        have h2 := List.filter_eq_nil_iff.mp (List.length_eq_zero.mp hz) g hg
        exact Option.not_isSome_iff_eq_none.mp (by simpa using h2)
      · rw [if_neg hz] at h
        exact absurd h (by simp)
    · intro h
      have hz : (games.filter (fun g => g.total_score.isSome)).length = 0 := by
        rw [List.length_eq_zero, List.filter_eq_nil_iff]
        intro g hg
        simp [h g hg]
      rw [if_pos hz]
  · intro h
    have hz : (flatFrames games).length = 0 := h
    constructor
    · show (if (flatFrames games).length > 0 then _ else 0) = 0
      rw [if_neg (by omega)]
    · show (if (flatFrames games).length > 0 then _ else 0) = 0
      rw [if_neg (by omega)]
  · intro h
    have hz : (flatFrames games).length ≠ 0 := h
    constructor
    · show (if (flatFrames games).length > 0 then
          round3 (jsDiv ((((flatFrames games).filter (·.is_strike)).length : ℚ))
            (((flatFrames games).length : ℚ))) else 0) = _
      rw [if_pos (by omega)]
    · show (if (flatFrames games).length > 0 then
          round3 (jsDiv ((((flatFrames games).filter (·.is_spare)).length : ℚ))
            (((flatFrames games).length : ℚ))) else 0) = _
      rw [if_pos (by omega)]
  · intro e he
    unfold summarizeFrames at he
    obtain ⟨p, hp, rfl⟩ := List.mem_map.mp he
    refine ⟨p.2, mem_sortStable.mp hp, rfl, ?_, ?_⟩
    · intro hzero
      refine ⟨?_, ?_, ?_⟩ <;> simp [hzero]
    · intro hnz
      refine ⟨?_, ?_, ?_⟩ <;> simp [Nat.pos_of_ne_zero hnz]
  · rw [summarizeGames_avg]
    have hlen :
        (([{ id := strLit "a", session_id := none, game_name := strLit "Game 1",
             player_name := [], total_score := some 200, played_at := none,
             created_at := none, frames := [] },
           { id := strLit "b", session_id := none, game_name := strLit "Game 2",
             player_name := [], total_score := some 180, played_at := none,
             created_at := none, frames := [] },
           { id := strLit "c", session_id := none, game_name := strLit "Game 3",
             player_name := [], total_score := some 220, played_at := none,
             created_at := none, frames := [] }] : List OGame).filter
          (fun g => g.total_score.isSome)).length = 3 := by decide
    rw [hlen]
    have hsum :
        (([{ id := strLit "a", session_id := none, game_name := strLit "Game 1",
             player_name := [], total_score := some 200, played_at := none,
             created_at := none, frames := [] },
           { id := strLit "b", session_id := none, game_name := strLit "Game 2",
             player_name := [], total_score := some 180, played_at := none,
             created_at := none, frames := [] },
           { id := strLit "c", session_id := none, game_name := strLit "Game 3",
             player_name := [], total_score := some 220, played_at := none,
             created_at := none, frames := [] }] : List OGame).filterMap
          (·.total_score)).sum = 600 := by decide
    rw [hsum]
    rw [if_neg (by omega)]
    unfold jsDiv
    rw [show ((600 : Int) : ℚ) / ((3 : Nat) : ℚ) = 200 by norm_num]
    rw [dblRound_200]
    unfold round2
    rw [show Int.floor ((200 : ℚ) * 100 + 1 / 2) = 20000 by
      rw [Int.floor_eq_iff]
      constructor <;> norm_num]
    norm_num

/-- The 40-game collection realizing the rounding divergence: three
games scored 1 and thirty-seven scored 0. -/
def cexNinePointOhSevenGames : List OGame :=
  (List.range 40).map (fun i =>
    ({ id := natToStr i, session_id := none, game_name := strLit "G",
       player_name := [], total_score := some (if i < 3 then 1 else 0),
       played_at := none, created_at := none, frames := [] } : OGame))

/-- Counterexample to C9 as stated: over 40 scored games summing to 3
the program computes the double 3/40 (slightly below 0.075) and
`toFixed(2)` yields 0.07, while rounding the exact quotient 3/40 to 2
decimals yields 0.08 — so `averageScore` is not the exact quotient
rounded to 2 decimals. -/
theorem claim_c9_counterexample :
    (summarizeGames cexNinePointOhSevenGames).averageScore = some (7 / 100) ∧
    round2 ((((cexNinePointOhSevenGames.filterMap (·.total_score)).sum : Int) : ℚ) /
      ((cexNinePointOhSevenGames.filter (fun g => g.total_score.isSome)).length : ℚ)) =
      8 / 100 ∧
    ((7 : ℚ) / 100) ≠ 8 / 100 := by
  have hlen : (cexNinePointOhSevenGames.filter
      (fun g => g.total_score.isSome)).length = 40 := by decide
  have hsum : (cexNinePointOhSevenGames.filterMap (·.total_score)).sum = 3 := by
    decide
  refine ⟨?_, ?_, by norm_num⟩
  · rw [summarizeGames_avg, hlen, hsum, if_neg (by omega)]
    unfold jsDiv
    rw [show ((3 : Int) : ℚ) / ((40 : Nat) : ℚ) = 3 / 40 by norm_num]
    rw [dblRound_3_40]
    unfold round2
    rw [show Int.floor
        ((5404319552844595 : ℚ) / 72057594037927936 * 100 + 1 / 2) = 7 by
      rw [Int.floor_eq_iff]
      constructor <;> norm_num]
    norm_num
  · rw [hlen, hsum]
    unfold round2
    rw [show ((3 : Int) : ℚ) / ((40 : Nat) : ℚ) * 100 + 1 / 2 = 8 by norm_num]
    rw [show Int.floor ((8 : ℚ)) = 8 by norm_num]
    norm_num

/-- Witness for C9 at the empty collection: no scored games gives a null
average, and the empty denominator gives rate 0, not null. -/
theorem claim_c9_aggregator_witness :
    (summarizeGames ([] : List OGame)).strikeRate = 0 ∧
    (summarizeGames ([] : List OGame)).spareRate = 0 ∧
    (summarizeGames ([] : List OGame)).averageScore = none := by
  have h := claim_c9_aggregator ([] : List OGame)
  exact ⟨(h.2.2.1 rfl).1, (h.2.2.1 rfl).2, h.2.1.mpr (by simp)⟩

/-- A code point kept by `stripNonAscii`
(`[^\x09\x0A\x0D\x20-\x7E]` is removed). -/
def cleanChar (c : Nat) : Bool :=
  c == 9 || c == 10 || c == 13 || (32 ≤ c && c ≤ 126)

/-- `stripNonAscii` from the source. -/
def stripNonAscii (l : Str) : Str := l.filter cleanChar

/-- The four code points of `null`, case-insensitively. -/
def isNullSeq (a b c d : Nat) : Bool :=
  lowerN a == 110 && lowerN b == 117 && lowerN c == 108 && lowerN d == 108

/-- The global replacement `/\bnull\b/gi → "n/a"`.  `pw` tracks whether
the previous code point of the original string was a word character (the
state of the `\b` boundary). -/
def replNull : Bool → Str → Str
  | _, [] => []
  | _, [c] => [c]
  | _, [c, d] => [c, d]
  | _, [c, d, e] => [c, d, e]
  | pw, c :: d :: e :: f :: rest =>
    if !pw && isNullSeq c d e f && boundaryAfter rest then
      110 :: 47 :: 97 :: replNull true rest
    else
      c :: replNull (isWordChar c) (d :: e :: f :: rest)

/-- Scanner for an occurrence of `null` (case-insensitive) at `\b` word
boundaries; `pw` as in `replNull`. -/
def hasNullW : Bool → Str → Bool
  | _, [] => false
  | _, [_] => false
  | _, [_, _] => false
  | _, [_, _, _] => false
  | pw, c :: d :: e :: f :: rest =>
    (!pw && isNullSeq c d e f && boundaryAfter rest) ||
      hasNullW (isWordChar c) (d :: e :: f :: rest)

/-- Split on `/\r?\n/` (JS `split`; a lone `\r` does not split). -/
def splitCons (c : Nat) : List Str → List Str
  | [] => [[c]]
  | h :: t => (c :: h) :: t

def splitLines : Str → List Str
  | [] => [[]]
  | 13 :: 10 :: rest => [] :: splitLines rest
  | 10 :: rest => [] :: splitLines rest
  | c :: rest => splitCons c (splitLines rest)

/-- Interleave a separator code point (JS `join`). -/
def joinSep (sep : Nat) : List Str → Str
  | [] => []
  | l :: rest =>
    match rest with
    | [] => l
    | _ :: _ => l ++ sep :: joinSep sep rest

/-- `text.replace(/^pat\s*/i, "")` for a literal lowercase `pat`. -/
def stripLeadCI (pat : Str) (l : Str) : Str :=
  if startsWithCI pat l then (l.drop pat.length).dropWhile isJsWs else l

/-- `sanitizeAnswer` from the source: strip `Answer:`/`Question:`
prefixes and an echoed restatement of the question, then re-join the
trimmed non-empty lines. -/
def sanitizeAnswer (raw question : Str) : Str :=
  let normalizedQuestion := toLowerStr (jsTrim question)
  let text0 := jsTrim raw
  let text1 := stripLeadCI (strLit "answer:") text0
  let text2 := stripLeadCI (strLit "question:") text1
  let lines := splitLines text2
  let lines2 :=
    match lines with
    | [] => []
    | first :: restLines =>
      if toLowerStr first == normalizedQuestion then restLines
      else if normalizedQuestion.length > 0 &&
          normalizedQuestion.isPrefixOf (toLowerStr first) then
        let rest0 := jsTrim (first.drop question.length)
        let rest := stripLeadCI (strLit "answer:") rest0
        if rest ≠ [] then rest :: restLines else restLines
      else first :: restLines
  joinSep 10 ((lines2.map jsTrim).filter (fun l => !l.isEmpty))

/-- The leading-quote class of `ensureSentence`:
`["'`(\[]` (34, 39, 96, 40, 91). -/
def isLeadQuote (c : Nat) : Bool :=
  c == 34 || c == 39 || c == 96 || c == 40 || c == 91

/-- Is an ASCII lowercase letter (`[a-z]`). -/
def isLowerAlpha (c : Nat) : Bool := 97 ≤ c && c ≤ 122

/-- The replacement of `/^(\s*["'`(\[]?)([a-z])/` by the uppercased
match: capitalize the first letter, allowing leading whitespace and one
opening quote/bracket. -/
def capitalizeLead (l : Str) : Str :=
  let ws := l.takeWhile isJsWs
  let rest := l.dropWhile isJsWs
  match rest with
  | [] => l
  | c :: rest2 =>
    if isLeadQuote c then
      match rest2 with
      | d :: rest3 => if isLowerAlpha d then ws ++ c :: upperN d :: rest3 else l
      | [] => l
    else if isLowerAlpha c then ws ++ upperN c :: rest2
    else l

/-- Does the trimmed text already end in `.`, `!` or `?`. -/
def endsWithPunct (l : Str) : Bool :=
  match l.getLast? with
  | some c => c == 46 || c == 33 || c == 63
  | none => false

/-- `ensureSentence` from the source. -/
def ensureSentence (t : Str) : Str :=
  let trimmed := jsTrim t
  if trimmed.isEmpty then strLit "No response generated."
  else
    let withPunctuation := if endsWithPunct trimmed then trimmed else trimmed ++ [46]
    capitalizeLead withPunctuation

/-- `formatAnswer` from the source: sanitize, null-elide, strip
non-ASCII, enforce sentence shape. -/
def formatAnswer (raw question : Str) : Str :=
  ensureSentence (stripNonAscii (replNull false (sanitizeAnswer raw question)))

/-- `formatOfflineAnswer` from the source. -/
def formatOfflineAnswer (text : Str) : Str :=
  ensureSentence (stripNonAscii (replNull false text))

/-- Whether a `null` word occurrence starts at the current scan
position. -/
def nullHere : Bool → Str → Bool
  | pw, c :: d :: e :: f :: rest => !pw && isNullSeq c d e f && boundaryAfter rest
  | _, _ => false

theorem hasNullW_cons (b : Bool) (c : Nat) (l : Str) :
    hasNullW b (c :: l) = (nullHere b (c :: l) || hasNullW (isWordChar c) l) := by
  match l with
  | [] => rfl
  | [_] => rfl
  | [_, _] => rfl
  | _ :: _ :: _ :: _ => rfl

theorem isWordChar_true_of_lowerN {c x : Nat} (hx1 : 97 ≤ x) (hx2 : x ≤ 122)
    (h : lowerN c = x) : isWordChar c = true := by
  unfold isWordChar
  simp only [Bool.or_eq_true, Bool.and_eq_true, decide_eq_true_eq, beq_iff_eq]
  unfold lowerN at h
  by_cases hc : (65 ≤ c && c ≤ 90) = true
  · rw [if_pos hc] at h
    simp only [Bool.and_eq_true, decide_eq_true_eq] at hc
    omega
  · rw [if_neg hc] at h
    omega

theorem not_null_letter_of_not_word {s : Nat} (h : isWordChar s = false) :
    (lowerN s == 110) = false ∧ (lowerN s == 117) = false ∧
      (lowerN s == 108) = false := by
  refine ⟨?_, ?_, ?_⟩ <;>
    · apply beq_eq_false_iff_ne.mpr
      intro he
      rw [isWordChar_true_of_lowerN (by omega) (by omega) he] at h
      exact Bool.noConfusion h

theorem nullHere_false_at1 {b : Bool} {c : Nat} {l : Str}
    (h : (lowerN c == 110) = false) : nullHere b (c :: l) = false := by
  match l with
  | [] => rfl
  | [_] => rfl
  | [_, _] => rfl
  | _ :: _ :: _ :: _ => simp [nullHere, isNullSeq, h]

theorem nullHere_false_at2 {b : Bool} {c d : Nat} {l : Str}
    (h : (lowerN d == 117) = false) : nullHere b (c :: d :: l) = false := by
  match l with
  | [] => rfl
  | [_] => rfl
  | _ :: _ :: _ => simp [nullHere, isNullSeq, h]

theorem nullHere_false_at3 {b : Bool} {c d e : Nat} {l : Str}
    (h : (lowerN e == 108) = false) : nullHere b (c :: d :: e :: l) = false := by
  match l with
  | [] => rfl
  | _ :: _ => simp [nullHere, isNullSeq, h]

theorem nullHere_false_at4 {b : Bool} {c d e f : Nat} {l : Str}
    (h : (lowerN f == 108) = false) : nullHere b (c :: d :: e :: f :: l) = false := by
  simp [nullHere, isNullSeq, h]

theorem nullHere_of_true {l : Str} : nullHere true l = false := by
  match l with
  | [] => rfl
  | [_] => rfl
  | [_, _] => rfl
  | [_, _, _] => rfl
  | _ :: _ :: _ :: _ :: _ => simp [nullHere]

/-- With the previous character a word character, the replacement never
fires at the head, so the head passes through. -/
theorem repl_true_cons (x : Nat) (l : Str) :
    replNull true (x :: l) = x :: replNull (isWordChar x) l := by
  match l with
  | [] => rfl
  | [_] => rfl
  | [_, _] => rfl
  | _ :: _ :: _ :: _ => simp [replNull]

theorem repl_no_null : ∀ (l : Str) (b : Bool), hasNullW b (replNull b l) = false
  | [], _ => rfl
  | [_], _ => rfl
  | [_, _], _ => rfl
  | [_, _, _], _ => rfl
  | c :: d :: e :: f :: rest, b => by
    have ihRest : hasNullW true (replNull true rest) = false := repl_no_null rest true
    have ihTail : hasNullW (isWordChar c)
        (replNull (isWordChar c) (d :: e :: f :: rest)) = false :=
      repl_no_null (d :: e :: f :: rest) (isWordChar c)
    by_cases hfire : (!b && isNullSeq c d e f && boundaryAfter rest) = true
    · have hrepl : replNull b (c :: d :: e :: f :: rest) =
          110 :: 47 :: 97 :: replNull true rest := by
        simp only [replNull, hfire, if_true]
      rw [hrepl, hasNullW_cons, hasNullW_cons, hasNullW_cons]
      have h1 : nullHere b (110 :: 47 :: 97 :: replNull true rest) = false :=
        nullHere_false_at2 (by decide)
      have h2 : nullHere (isWordChar 110) (47 :: 97 :: replNull true rest) = false :=
        nullHere_false_at1 (by decide)
      have h3 : nullHere (isWordChar 47) (97 :: replNull true rest) = false :=
        nullHere_false_at1 (by decide)
      rw [h1, h2, h3]
      simp only [Bool.false_or]
      show hasNullW (isWordChar 97) (replNull true rest) = false
      exact ihRest
    · have hrepl : replNull b (c :: d :: e :: f :: rest) =
          c :: replNull (isWordChar c) (d :: e :: f :: rest) := by
        simp only [replNull]
        rw [if_neg hfire]
      rw [hrepl, hasNullW_cons]
      rw [ihTail, Bool.or_false]
      by_cases hb : b
      · subst hb
        exact nullHere_of_true
      · have hbf : b = false := by simpa using hb
        subst hbf
        by_cases hc : (lowerN c == 110) = true
        · have hcw : isWordChar c = true :=
            isWordChar_true_of_lowerN (by norm_num) (by norm_num)
              (beq_iff_eq.mp hc)
          rw [hcw, repl_true_cons]
          by_cases hd : (lowerN d == 117) = true
          · have hdw : isWordChar d = true :=
              isWordChar_true_of_lowerN (by norm_num) (by norm_num)
                (beq_iff_eq.mp hd)
            rw [hdw, repl_true_cons]
            by_cases he : (lowerN e == 108) = true
            · have hew : isWordChar e = true :=
                isWordChar_true_of_lowerN (by norm_num) (by norm_num)
                  (beq_iff_eq.mp he)
              rw [hew, repl_true_cons]
              by_cases hf : (lowerN f == 108) = true
              · have hfw : isWordChar f = true :=
                  isWordChar_true_of_lowerN (by norm_num) (by norm_num)
                    (beq_iff_eq.mp hf)
                rw [hfw]
                have hseq : isNullSeq c d e f = true := by
                  simp [isNullSeq, hc, hd, he, hf]
                have hbnd : boundaryAfter rest = false := by
                  by_cases hbr : boundaryAfter rest = true
                  · exact absurd (by simp [hseq, hbr]) hfire
                  · simpa using hbr
                obtain ⟨r, rest2, hr, hrw⟩ :
                    ∃ r rest2, rest = r :: rest2 ∧ isWordChar r = true := by
                  cases hrest : rest with
                  | nil => rw [hrest] at hbnd; exact absurd hbnd (by decide)
                  | cons r rest2 =>
                    refine ⟨r, rest2, rfl, ?_⟩
                    rw [hrest] at hbnd
                    simpa [boundaryAfter] using hbnd
                subst hr
                rw [repl_true_cons]
                show nullHere false
                    (c :: d :: e :: f :: r :: replNull (isWordChar r) rest2) = false
                simp [nullHere, boundaryAfter, hrw]
              · exact nullHere_false_at4 (by simpa using hf)
            · have := nullHere_false_at3 (l := replNull (isWordChar e) (f :: rest))
                (b := false) (c := c) (d := d) (e := e) (by simpa using he)
              exact this
          · exact nullHere_false_at2 (by simpa using hd)
        · exact nullHere_false_at1 (by simpa using hc)

theorem boundaryAfter_append {suf : Str} (hsuf : ∀ x ∈ suf, isWordChar x = false)
    (t : Str) : boundaryAfter (t ++ suf) = boundaryAfter t := by
  cases t with
  | nil =>
    cases suf with
    | nil => rfl
    | cons s suf2 => simp [boundaryAfter, hsuf s (by simp)]
  | cons x t2 => rfl

theorem nullHere_append_nonword {suf : Str} (hsuf : ∀ x ∈ suf, isWordChar x = false)
    (b : Bool) (l : Str) : nullHere b (l ++ suf) = nullHere b l := by
  match l with
  | [] =>
    show nullHere b suf = nullHere b []
    match suf with
    | [] => rfl
    | [_] => rfl
    | [_, _] => rfl
    | [_, _, _] => rfl
    | s :: _ :: _ :: _ :: _ =>
      rw [nullHere_false_at1 (not_null_letter_of_not_word (hsuf s (by simp))).1]
      rfl
  | [c] =>
    show nullHere b (c :: suf) = nullHere b [c]
    match suf with
    | [] => rfl
    | [_] => rfl
    | [_, _] => rfl
    | s :: _ :: _ :: _ =>
      rw [nullHere_false_at2 (not_null_letter_of_not_word (hsuf s (by simp))).2.1]
      rfl
  | [c, d] =>
    show nullHere b (c :: d :: suf) = nullHere b [c, d]
    match suf with
    | [] => rfl
    | [_] => rfl
    | s :: _ :: _ =>
      rw [nullHere_false_at3 (not_null_letter_of_not_word (hsuf s (by simp))).2.2]
      rfl
  | [c, d, e] =>
    show nullHere b (c :: d :: e :: suf) = nullHere b [c, d, e]
    match suf with
    | [] => rfl
    | s :: _ =>
      rw [nullHere_false_at4 (not_null_letter_of_not_word (hsuf s (by simp))).2.2]
      rfl
  | c :: d :: e :: f :: t =>
    show nullHere b (c :: d :: e :: f :: (t ++ suf)) = _
    cases t with
    | nil =>
      cases hsu : suf with
      | nil => simp
      | cons s suf2 =>
        simp only [nullHere, List.nil_append]
        have hb : boundaryAfter (s :: suf2) = true := by
          have hs : isWordChar s = false := hsuf s (by rw [hsu]; simp)
          simp [boundaryAfter, hs]
        rw [hb]
        rfl
    | cons x t2 =>
      simp only [nullHere, List.cons_append]
      rw [show (x :: (t2 ++ suf)) = (x :: t2) ++ suf from rfl,
        boundaryAfter_append hsuf (x :: t2)]

theorem hasNullW_all_nonword {l : Str} (h : ∀ x ∈ l, isWordChar x = false)
    (b : Bool) : hasNullW b l = false := by
  induction l generalizing b with
  | nil => rfl
  | cons c rest ih =>
    rw [hasNullW_cons,
      nullHere_false_at1 (not_null_letter_of_not_word (h c (by simp))).1,
      ih (fun x hx => h x (by simp [hx])), Bool.or_false]

theorem hasNullW_append_nonword {suf : Str}
    (hsuf : ∀ x ∈ suf, isWordChar x = false) :
    ∀ (l : Str) (b : Bool), hasNullW b (l ++ suf) = hasNullW b l := by
  intro l
  induction l with
  | nil =>
    intro b
    show hasNullW b suf = false
    exact hasNullW_all_nonword hsuf b
  | cons c rest ih =>
    intro b
    show hasNullW b (c :: (rest ++ suf)) = _
    rw [hasNullW_cons, hasNullW_cons, ih (isWordChar c),
      show (c :: (rest ++ suf)) = (c :: rest) ++ suf from rfl,
      nullHere_append_nonword hsuf b (c :: rest)]

theorem isWordChar_false_of_ws {c : Nat} (h : isJsWs c = true) :
    isWordChar c = false := by
  have hcc : ¬ (isWordChar c = true) := by
    intro hw
    unfold isJsWs at h
    unfold isWordChar at hw
    simp only [Bool.or_eq_true, Bool.and_eq_true, decide_eq_true_eq,
      beq_iff_eq] at h hw
    omega
  simpa using hcc

theorem hasNullW_dropWhile_ws (l : Str) :
    hasNullW false (l.dropWhile isJsWs) = hasNullW false l := by
  induction l with
  | nil => rfl
  | cons c rest ih =>
    by_cases hc : isJsWs c = true
    · rw [List.dropWhile_cons_of_pos hc, ih, hasNullW_cons,
        nullHere_false_at1
          (not_null_letter_of_not_word (isWordChar_false_of_ws hc)).1,
        isWordChar_false_of_ws hc, Bool.false_or]
    · rw [List.dropWhile_cons_of_neg hc]

theorem hasNullW_jsTrim (l : Str) :
    hasNullW false (jsTrim l) = hasNullW false l := by
  unfold jsTrim
  rw [← hasNullW_dropWhile_ws l]
  set t := l.dropWhile isJsWs with ht
  have hdecomp : t = (List.dropWhile isJsWs t.reverse).reverse ++
      (List.takeWhile isJsWs t.reverse).reverse := by
    have h1 : List.takeWhile isJsWs t.reverse ++ List.dropWhile isJsWs t.reverse =
        t.reverse := List.takeWhile_append_dropWhile isJsWs t.reverse
    have h2 := congrArg List.reverse h1
    rw [List.reverse_append, List.reverse_reverse] at h2
    exact h2.symm
  conv_rhs => rw [hdecomp]
  rw [hasNullW_append_nonword]
  intro x hx
  rw [List.mem_reverse] at hx
  exact isWordChar_false_of_ws (List.mem_takeWhile_imp hx)

theorem lowerN_upperN {c : Nat} (h : isLowerAlpha c = true) :
    lowerN (upperN c) = lowerN c ∧ isWordChar (upperN c) = isWordChar c := by
  unfold isLowerAlpha at h
  simp only [Bool.and_eq_true, decide_eq_true_eq] at h
  have hup : upperN c = c - 32 := by
    unfold upperN
    rw [if_pos]
    simp only [Bool.and_eq_true, decide_eq_true_eq]
    omega
  have h1 : lowerN (c - 32) = c := by
    unfold lowerN
    rw [if_pos]
    · omega
    · simp only [Bool.and_eq_true, decide_eq_true_eq]
      omega
  have h2 : lowerN c = c := by
    unfold lowerN
    rw [if_neg]
    simp only [Bool.and_eq_true, decide_eq_true_eq]
    omega
  have h3 : isWordChar (c - 32) = true := by
    unfold isWordChar
    simp only [Bool.or_eq_true, Bool.and_eq_true, decide_eq_true_eq, beq_iff_eq]
    omega
  have h4 : isWordChar c = true := by
    unfold isWordChar
    simp only [Bool.or_eq_true, Bool.and_eq_true, decide_eq_true_eq, beq_iff_eq]
    omega
  rw [hup, h1, h2, h3, h4]
  exact ⟨rfl, rfl⟩

theorem nullHere_upper_head {c : Nat} (h : isLowerAlpha c = true) (b : Bool)
    (rest : Str) : nullHere b (upperN c :: rest) = nullHere b (c :: rest) := by
  match rest with
  | [] => rfl
  | [_] => rfl
  | [_, _] => rfl
  | d :: e :: f :: t => simp [nullHere, isNullSeq, (lowerN_upperN h).1]

theorem hasNullW_upper_head {c : Nat} (h : isLowerAlpha c = true) (b : Bool)
    (rest : Str) : hasNullW b (upperN c :: rest) = hasNullW b (c :: rest) := by
  rw [hasNullW_cons, hasNullW_cons, nullHere_upper_head h, (lowerN_upperN h).2]

theorem hasNullW_ws_lead {ws : Str} (hws : ∀ x ∈ ws, isJsWs x = true)
    (x : Str) : hasNullW false (ws ++ x) = hasNullW false x := by
  induction ws with
  | nil => rfl
  | cons w ws2 ih =>
    rw [List.cons_append, hasNullW_cons,
      nullHere_false_at1 (not_null_letter_of_not_word
        (isWordChar_false_of_ws (hws w (by simp)))).1,
      isWordChar_false_of_ws (hws w (by simp)), Bool.false_or,
      ih (fun y hy => hws y (by simp [hy]))]

theorem isWordChar_false_of_quote {c : Nat} (h : isLeadQuote c = true) :
    isWordChar c = false := by
  have hcc : ¬ (isWordChar c = true) := by
    intro hw
    unfold isLeadQuote at h
    unfold isWordChar at hw
    simp only [Bool.or_eq_true, Bool.and_eq_true, decide_eq_true_eq,
      beq_iff_eq] at h hw
    omega
  simpa using hcc

theorem hasNullW_capitalizeLead (l : Str) :
    hasNullW false (capitalizeLead l) = hasNullW false l := by
  have hws : ∀ x ∈ l.takeWhile isJsWs, isJsWs x = true :=
    fun x hx => List.mem_takeWhile_imp hx
  have hl : l = l.takeWhile isJsWs ++ l.dropWhile isJsWs := by
    rw [List.takeWhile_append_dropWhile]
  unfold capitalizeLead
  cases hrest : l.dropWhile isJsWs with
  | nil => rfl
  | cons c rest2 =>
    dsimp only
    by_cases hq : isLeadQuote c = true
    · rw [if_pos hq]
      cases rest2 with
      | nil => rfl
      | cons d rest3 =>
        dsimp only
        by_cases hd : isLowerAlpha d = true
        · rw [if_pos hd]
          conv_rhs => rw [hl, hrest]
          have hwc := isWordChar_false_of_quote hq
          rw [hasNullW_ws_lead hws, hasNullW_ws_lead hws,
            hasNullW_cons false c (upperN d :: rest3),
            hasNullW_cons false c (d :: rest3),
            nullHere_false_at1 (not_null_letter_of_not_word hwc).1,
            nullHere_false_at1 (not_null_letter_of_not_word hwc).1,
            hwc, hasNullW_upper_head hd]
        · rw [if_neg hd]
    · rw [if_neg hq]
      by_cases hc : isLowerAlpha c = true
      · rw [if_pos hc]
        conv_rhs => rw [hl, hrest]
        rw [hasNullW_ws_lead hws, hasNullW_ws_lead hws,
          hasNullW_upper_head hc]
      · rw [if_neg hc]

theorem hasNullW_ensureSentence {t : Str} (h : hasNullW false t = false) :
    hasNullW false (ensureSentence t) = false := by
  unfold ensureSentence
  by_cases he : (jsTrim t).isEmpty = true
  · rw [if_pos he]
    decide
  · rw [if_neg he]
    have htrim : hasNullW false (jsTrim t) = false := by
      rw [hasNullW_jsTrim]; exact h
    rw [hasNullW_capitalizeLead]
    by_cases hp : endsWithPunct (jsTrim t) = true
    · rw [if_pos hp]; exact htrim
    · rw [if_neg hp]
      rw [hasNullW_append_nonword (by decide)]
      exact htrim

theorem capitalizeLead_ne_nil {l : Str} (h : l ≠ []) : capitalizeLead l ≠ [] := by
  unfold capitalizeLead
  cases hrest : l.dropWhile isJsWs with
  | nil => exact h
  | cons c rest2 =>
    dsimp only
    by_cases hq : isLeadQuote c = true
    · rw [if_pos hq]
      cases rest2 with
      | nil => exact h
      | cons d rest3 =>
        dsimp only
        by_cases hd : isLowerAlpha d = true
        · rw [if_pos hd]
          simp
        · rw [if_neg hd]; exact h
    · rw [if_neg hq]
      by_cases hc : isLowerAlpha c = true
      · rw [if_pos hc]
        simp
      · rw [if_neg hc]; exact h

theorem ensureSentence_ne_nil (t : Str) : ensureSentence t ≠ [] := by
  unfold ensureSentence
  by_cases he : (jsTrim t).isEmpty = true
  · rw [if_pos he]
    decide
  · rw [if_neg he]
    apply capitalizeLead_ne_nil
    have hne : jsTrim t ≠ [] := by
      intro hx
      rw [hx] at he
      exact he rfl
    by_cases hp : endsWithPunct (jsTrim t) = true
    · rw [if_pos hp]; exact hne
    · rw [if_neg hp]; simp

theorem mem_splitCons {c : Nat} {ls : List Str} {line : Str}
    (h : line ∈ splitCons c ls) : ∀ y ∈ line, y = c ∨ ∃ l ∈ ls, y ∈ l := by
  intro y hy
  cases ls with
  | nil =>
    simp only [splitCons, List.mem_singleton] at h
    subst h
    simp only [List.mem_singleton] at hy
    exact Or.inl hy
  | cons h0 t =>
    simp only [splitCons, List.mem_cons] at h
    rcases h with h | h
    · subst h
      rcases List.mem_cons.mp hy with h | h
      · exact Or.inl h
      · exact Or.inr ⟨h0, List.mem_cons_self _ _, h⟩
    · exact Or.inr ⟨line, List.mem_cons_of_mem _ h, hy⟩

theorem splitLines_chars (l : Str) :
    ∀ line ∈ splitLines l, ∀ x ∈ line, x ∈ l := by
  induction l using splitLines.induct with
  | case1 =>
    intro line hline x hx
    simp only [splitLines, List.mem_singleton] at hline
    subst hline
    simp at hx
  | case2 rest ih =>
    intro line hline x hx
    simp only [splitLines, List.mem_cons] at hline
    rcases hline with h | h
    · subst h; simp at hx
    · have := ih line h x hx
      simp [this]
  | case3 rest ih =>
    intro line hline x hx
    simp only [splitLines, List.mem_cons] at hline
    rcases hline with h | h
    · subst h; simp at hx
    · have := ih line h x hx
      simp [this]
  | case4 c rest h1 h2 ih =>
    intro line hline x hx
    rw [show splitLines (c :: rest) = splitCons c (splitLines rest) from by
      rw [splitLines.eq_def]; split <;> first | rfl | simp_all] at hline
    rcases mem_splitCons hline x hx with h | ⟨l0, hl0, hxl0⟩
    · simp [h]
    · have := ih l0 hl0 x hxl0
      simp [this]

theorem joinSep_chars {sep : Nat} {ls : List Str} {x : Nat}
    (h : x ∈ joinSep sep ls) : x = sep ∨ ∃ l ∈ ls, x ∈ l := by
  induction ls with
  | nil => simp [joinSep] at h
  | cons l0 rest ih =>
    cases rest with
    | nil =>
      simp only [joinSep] at h
      exact Or.inr ⟨l0, List.mem_cons_self _ _, h⟩
    | cons l1 rest2 =>
      simp only [joinSep, List.mem_append, List.mem_cons] at h
      rcases h with h | h | h
      · exact Or.inr ⟨l0, List.mem_cons_self _ _, h⟩
      · exact Or.inl h
      · rcases ih h with h | ⟨l2, hl2, hx⟩
        · exact Or.inl h
        · exact Or.inr ⟨l2, List.mem_cons_of_mem _ hl2, hx⟩

theorem mem_of_mem_dropWhile {p : Nat → Bool} : ∀ {l : Str} {x : Nat},
    x ∈ List.dropWhile p l → x ∈ l
  | [], _, h => h
  | c :: t, x, h => by
    rw [List.dropWhile_cons] at h
    by_cases hc : p c = true
    · rw [if_pos hc] at h
      exact List.mem_cons_of_mem _ (mem_of_mem_dropWhile h)
    · rw [if_neg hc] at h
      exact h

theorem mem_of_mem_jsTrim {l : Str} {x : Nat} (h : x ∈ jsTrim l) : x ∈ l := by
  unfold jsTrim at h
  rw [List.mem_reverse] at h
  have h2 := mem_of_mem_dropWhile h
  rw [List.mem_reverse] at h2
  exact mem_of_mem_dropWhile h2

theorem mem_of_mem_stripLeadCI {pat l : Str} {x : Nat}
    (h : x ∈ stripLeadCI pat l) : x ∈ l := by
  unfold stripLeadCI at h
  by_cases hs : startsWithCI pat l = true
  · rw [if_pos hs] at h
    exact List.drop_subset _ _ (mem_of_mem_dropWhile h)
  · rw [if_neg hs] at h
    exact h

theorem sanitizeAnswer_chars {raw q : Str} {x : Nat}
    (hx : x ∈ sanitizeAnswer raw q) : x = 10 ∨ x ∈ raw := by
  unfold sanitizeAnswer at hx
  have hT2 : ∀ y ∈ stripLeadCI (strLit "question:")
      (stripLeadCI (strLit "answer:") (jsTrim raw)), y ∈ raw := by
    intro y hy
    exact mem_of_mem_jsTrim (mem_of_mem_stripLeadCI (mem_of_mem_stripLeadCI hy))
  rcases joinSep_chars hx with h | ⟨line, hline, hxl⟩
  · exact Or.inl h
  right
  rw [List.mem_filter] at hline
  rcases List.mem_map.mp hline.1 with ⟨line0, hline0, hmap⟩
  have hx0 : x ∈ line0 := mem_of_mem_jsTrim (hmap ▸ hxl)
  have hsplit := splitLines_chars (stripLeadCI (strLit "question:")
      (stripLeadCI (strLit "answer:") (jsTrim raw)))
  cases hsp : splitLines (stripLeadCI (strLit "question:")
      (stripLeadCI (strLit "answer:") (jsTrim raw))) with
  | nil =>
    rw [hsp] at hline0
    simp at hline0
  | cons first restLines =>
    rw [hsp] at hline0 hsplit
    dsimp only at hline0
    by_cases h1 : (toLowerStr first == toLowerStr (jsTrim q)) = true
    · rw [if_pos h1] at hline0
      exact hT2 x (hsplit line0 (List.mem_cons_of_mem _ hline0) x hx0)
    · rw [if_neg h1] at hline0
      by_cases h2 : ((toLowerStr (jsTrim q)).length > 0 &&
          (toLowerStr (jsTrim q)).isPrefixOf (toLowerStr first)) = true
      · rw [if_pos h2] at hline0
        by_cases h3 : stripLeadCI (strLit "answer:")
            (jsTrim (first.drop q.length)) ≠ []
        · rw [if_pos h3] at hline0
          rcases List.mem_cons.mp hline0 with h | h
          · subst h
            have hxf : x ∈ first :=
              List.drop_subset _ _
                (mem_of_mem_jsTrim (mem_of_mem_stripLeadCI hx0))
            exact hT2 x (hsplit first (List.mem_cons_self _ _) x hxf)
          · exact hT2 x (hsplit line0 (List.mem_cons_of_mem _ h) x hx0)
        · rw [if_neg h3] at hline0
          exact hT2 x (hsplit line0 (List.mem_cons_of_mem _ hline0) x hx0)
      · rw [if_neg h2] at hline0
        exact hT2 x (hsplit line0 hline0 x hx0)

theorem mem_replNull : ∀ (b : Bool) (l : Str) (x : Nat),
    x ∈ replNull b l → x ∈ l ∨ x = 110 ∨ x = 47 ∨ x = 97
  | _, [], _, h => Or.inl h
  | _, [_], _, h => Or.inl h
  | _, [_, _], _, h => Or.inl h
  | _, [_, _, _], _, h => Or.inl h
  | pw, c :: d :: e :: f :: rest, x, h => by
    by_cases hfire : (!pw && isNullSeq c d e f && boundaryAfter rest) = true
    · simp only [replNull] at h
      rw [if_pos hfire] at h
      rcases List.mem_cons.mp h with h | h
      · exact Or.inr (Or.inl h)
      rcases List.mem_cons.mp h with h | h
      · exact Or.inr (Or.inr (Or.inl h))
      rcases List.mem_cons.mp h with h | h
      · exact Or.inr (Or.inr (Or.inr h))
      rcases mem_replNull true rest x h with h | h
      · exact Or.inl (by simp [h])
      · exact Or.inr h
    · simp only [replNull] at h
      rw [if_neg hfire] at h
      rcases List.mem_cons.mp h with h | h
      · exact Or.inl (by simp [h])
      rcases mem_replNull (isWordChar c) (d :: e :: f :: rest) x h with h | h
      · exact Or.inl (List.mem_cons_of_mem _ h)
      · exact Or.inr h

theorem stripNonAscii_id {l : Str} (h : ∀ c ∈ l, cleanChar c = true) :
    stripNonAscii l = l :=
  List.filter_eq_self.mpr h

theorem startsWithCI_short {w l : Str} (h : l.length < w.length) :
    startsWithCI w l = false := by
  rw [startsWithCI]
  apply beq_eq_false_iff_ne.mpr
  intro he
  have hlen := congrArg List.length he
  simp only [List.length_map, List.length_take] at hlen
  omega

theorem startsWith_null4 (c d e f : Nat) (rest : Str) :
    startsWithCI (strLit "null") (c :: d :: e :: f :: rest) = isNullSeq c d e f := by
  show ([lowerN c, lowerN d, lowerN e, lowerN f] == [110, 117, 108, 108]) = _
  rw [Bool.eq_iff_iff]
  simp only [beq_iff_eq, List.cons.injEq, and_true, isNullSeq, Bool.and_eq_true]
  tauto

theorem hasNullW_eq_scan : ∀ (l : Str) (b : Bool),
    hasNullW b l = containsWordFrom (strLit "null") b l
  | [], _ => rfl
  | [c], b => by
    have h1 : startsWithCI (strLit "null") [c] = false :=
      startsWithCI_short (by show (1 : Nat) < 4; decide)
    simp only [hasNullW, containsWordFrom, h1, Bool.and_false, Bool.false_and,
      Bool.false_or, Bool.or_false]
  | [c, d], b => by
    have h1 : startsWithCI (strLit "null") [c, d] = false :=
      startsWithCI_short (by show (2 : Nat) < 4; decide)
    have h2 : startsWithCI (strLit "null") [d] = false :=
      startsWithCI_short (by show (1 : Nat) < 4; decide)
    simp only [hasNullW, containsWordFrom, h1, h2, Bool.and_false, Bool.false_and,
      Bool.false_or, Bool.or_false]
  | [c, d, e], b => by
    have h1 : startsWithCI (strLit "null") [c, d, e] = false :=
      startsWithCI_short (by show (3 : Nat) < 4; decide)
    have h2 : startsWithCI (strLit "null") [d, e] = false :=
      startsWithCI_short (by show (2 : Nat) < 4; decide)
    have h3 : startsWithCI (strLit "null") [e] = false :=
      startsWithCI_short (by show (1 : Nat) < 4; decide)
    simp only [hasNullW, containsWordFrom, h1, h2, h3, Bool.and_false,
      Bool.false_and, Bool.false_or, Bool.or_false]
  | c :: d :: e :: f :: rest, b => by
    have ih := hasNullW_eq_scan (d :: e :: f :: rest) (isWordChar c)
    rw [show containsWordFrom (strLit "null") b (c :: d :: e :: f :: rest) =
        ((!b && startsWithCI (strLit "null") (c :: d :: e :: f :: rest) &&
          boundaryAfter rest) ||
          containsWordFrom (strLit "null") (isWordChar c) (d :: e :: f :: rest))
      from rfl]
    rw [show hasNullW b (c :: d :: e :: f :: rest) =
        ((!b && isNullSeq c d e f && boundaryAfter rest) ||
          hasNullW (isWordChar c) (d :: e :: f :: rest)) from rfl]
    rw [startsWith_null4, ih]

/-- Claim C7 counterexample: the raw answer holding the code points of
`null null` followed by a vertical tab (11) and `l` contains the
standalone word `null`, and so does its post-processed form: the
vertical tab is removed by `stripNonAscii` only after the
null-replacement pass, fusing the surrounding pieces into a fresh
`null` that survives into the final answer `N/a null.`. -/
theorem claim_c7_counterexample :
    WordOccur (strLit "null") [110, 117, 108, 108, 32, 110, 117, 108, 11, 108] ∧
    formatAnswer [110, 117, 108, 108, 32, 110, 117, 108, 11, 108] [] =
      [78, 47, 97, 32, 110, 117, 108, 108, 46] ∧
    WordOccur (strLit "null")
      (formatAnswer [110, 117, 108, 108, 32, 110, 117, 108, 11, 108] []) := by
  refine ⟨?_, by decide, ?_⟩
  · exact ⟨[], [110, 117, 108, 108], [32, 110, 117, 108, 11, 108],
      by decide, by decide, by decide, by decide⟩
  · rw [show formatAnswer [110, 117, 108, 108, 32, 110, 117, 108, 11, 108] [] =
        [78, 47, 97, 32, 110, 117, 108, 108, 46] from by decide]
    exact ⟨[78, 47, 97, 32], [110, 117, 108, 108], [46],
      by decide, by decide, by decide, by decide⟩

/-- Claim C7 (amended): for every raw answer made only of code points
kept by `stripNonAscii` (tab, LF, CR, 0x20 to 0x7E) and every question,
the post-processed answer produced by `formatAnswer` never contains
`null` (case-insensitive) as a standalone word.  The restriction to
clean raw inputs is forced by `claim_c7_counterexample`: the original
claim fails when a stripped control character splits the word `null`
in the raw text, because `stripNonAscii` runs after the
null-replacement pass and can fuse the pieces back together. -/
theorem claim_c7_null_elision (raw q : Str)
    (hclean : ∀ c ∈ raw, cleanChar c = true) :
    ¬ WordOccur (strLit "null") (formatAnswer raw q) := by
  intro hocc
  have hscan : containsWordCI (strLit "null") (formatAnswer raw q) = true :=
    (containsWordCI_iff (strLit "null") (by decide) _).2 hocc
  have hs_clean : ∀ c ∈ sanitizeAnswer raw q, cleanChar c = true := by
    intro c hc
    rcases sanitizeAnswer_chars hc with h | h
    · rw [h]; decide
    · exact hclean c h
  have hrepl_clean : ∀ c ∈ replNull false (sanitizeAnswer raw q),
      cleanChar c = true := by
    intro c hc
    rcases mem_replNull false (sanitizeAnswer raw q) c hc with h | h | h | h
    · exact hs_clean c h
    · rw [h]; decide
    · rw [h]; decide
    · rw [h]; decide
  have hstrip : stripNonAscii (replNull false (sanitizeAnswer raw q)) =
      replNull false (sanitizeAnswer raw q) := stripNonAscii_id hrepl_clean
  have hfinal : hasNullW false (formatAnswer raw q) = false := by
    unfold formatAnswer
    rw [hstrip]
    exact hasNullW_ensureSentence (repl_no_null (sanitizeAnswer raw q) false)
  unfold containsWordCI at hscan
  rw [← hasNullW_eq_scan, hfinal] at hscan
  exact Bool.noConfusion hscan

/-- Claim C7 witness: the amended theorem applied to a concrete clean
raw answer containing the literal word `null`. -/
theorem claim_c7_null_elision_witness :
    (∀ c ∈ strLit "the total is null for game 2", cleanChar c = true) ∧
    ¬ WordOccur (strLit "null")
      (formatAnswer (strLit "the total is null for game 2") []) :=
  ⟨by decide, claim_c7_null_elision _ _ (by decide)⟩

/-- Join a list of strings with a separator string (JS `join`). -/
def joinStr (sep : Str) : List Str → Str
  | [] => []
  | l :: rest =>
    match rest with
    | [] => l
    | _ :: _ => l ++ sep ++ joinStr sep rest

/-- `String.prototype.split` on one literal code point
(`text.split("\n")`, which does not treat `\r\n` specially). -/
def splitChar (sep : Nat) : Str → List Str
  | [] => [[]]
  | c :: rest =>
    if c = sep then [] :: splitChar sep rest
    else splitCons c (splitChar sep rest)

/-- Split a line at its last colon: the label part including the colon,
and the remainder.  `none` when the line has no colon.  This is where
the anchored match of `/^(.*?:)\s*([^:]+)$/` must place the colon of
group 1, since group 2 cannot contain a colon. -/
def splitLastColon : Str → Option (Str × Str)
  | [] => none
  | c :: rest =>
    match splitLastColon rest with
    | some (lab, val) => some (c :: lab, val)
    | none => if c = 58 then some ([c], rest) else none

/-- One line of `applyOfflineBold`: wrap the value of a `label: value`
line in `**`.  The regex `/^(.*?:)\s*([^:]+)$/` matches exactly when the
line has a colon with a non-empty remainder after the last one, and the
captured value, after `trim()`, equals the trimmed remainder. -/
def boldLine (line : Str) : Str :=
  if !containsStr line [58] then line
  else
    match splitLastColon line with
    | none => line
    | some (label, rest) =>
      if rest.isEmpty then line
      else
        let value := jsTrim rest
        if [42, 42].isPrefixOf value && [42, 42].isSuffixOf value then line
        else label ++ [32, 42, 42] ++ value ++ [42, 42]

/-- `applyOfflineBold` from the source. -/
def applyOfflineBold (text : Str) : Str :=
  joinStr [10] ((splitChar 10 text).map boldLine)

/-- `summarizeOnlineError` from the source. -/
def summarizeOnlineError (raw : Str) : Str :=
  let message := toLowerStr raw
  if containsStr message (strLit "quota") ||
      containsStr message (strLit "rate limit") then
    strLit "Rate limit reached. Try again in a bit."
  else if containsStr message (strLit "invalid api key") ||
      containsStr message (strLit "api key") then
    strLit "API key error. Check your Gemini API key."
  else if containsStr message (strLit "missing gemini_api_key") then
    strLit "Missing Gemini API key."
  else if containsStr message (strLit "missing supabase configuration") then
    strLit "Missing Supabase configuration."
  else if containsStr message (strLit "sql generation failed") then
    strLit "Could not generate a query for that question."
  else if containsStr message (strLit "sql execution failed") then
    strLit "Database query failed. Try again."
  else if containsStr message (strLit "no sql results") then
    strLit "No results found for that question."
  else if containsStr message (strLit "timeout") ||
      containsStr message (strLit "network") then
    strLit "Network error. Please try again."
  else strLit "Something went wrong while answering. Please try again."

/-- `Math.round` on the finite doubles that reach it. -/
def jsRound (q : ℚ) : Int := Int.floor (q + 1 / 2)

/-- `formatRate` from the source (`value` is a number or `null`). -/
def formatRate (value : Option ℚ) : Str :=
  match value with
  | none => strLit "n/a"
  | some v => intToStr (jsRound (v * 100)) ++ [37]

/-- JS `toString` of the numbers interpolated into shortcut answers.
Every such number is an integer or a `round2`/`round3` result, so its
denominator divides 1000 and `toString` prints the shortest decimal
expansion, computed here.  The final branch (a denominator not dividing
1000) is unreachable from the call sites; it falls back to the reduced
fraction digits. -/
def ratToJsStr (q : ℚ) : Str :=
  let sign : Str := if q < 0 then [45] else []
  let n := q.num.natAbs
  if q.den = 1 then sign ++ natToStr n
  else if 1000 % q.den = 0 then
    let scaled := n * (1000 / q.den)
    let ip := scaled / 1000
    let fr := scaled % 1000
    let ds := [fr / 100, fr / 10 % 10, fr % 10]
    let fds := (ds.reverse.dropWhile (· == 0)).reverse
    sign ++ natToStr ip ++ [46] ++ fds.map (fun d => 48 + d)
  else sign ++ natToStr n ++ [47] ++ natToStr q.den

/-- `String(n).padStart(2, "0")` for the decimal string of a minute. -/
def pad2 (s : Str) : Str := List.replicate (2 - s.length) 48 ++ s

/-- `formatMinutesToTime` from the source. -/
def formatMinutesToTime (minutes : Int) : Str :=
  let hour24 := jsRem (Int.fdiv minutes 60) 24
  let minute := jsRem minutes 60
  let meridiem := if hour24 ≥ 12 then strLit "pm" else strLit "am"
  let hour12 := if jsRem hour24 12 = 0 then (12 : Int) else jsRem hour24 12
  if minute = 0 then intToStr hour12 ++ meridiem
  else intToStr hour12 ++ [58] ++ pad2 (intToStr minute) ++ meridiem

/-- The month-name table of `formatDateLabel` (indexed by the 0-based
month of the filter). -/
def monthNames : List Str :=
  [strLit "January", strLit "February", strLit "March", strLit "April",
   strLit "May", strLit "June", strLit "July", strLit "August",
   strLit "September", strLit "October", strLit "November",
   strLit "December"]

/-- `formatDateLabel` from the source (`months[date.month]` is
`undefined` outside 0..11, which the template prints literally). -/
def formatDateLabel (d : DateFilter) : Str :=
  (if 0 ≤ d.month && d.month < 12 then monthNames.getD d.month.toNat []
   else strLit "undefined") ++
    [32] ++ intToStr d.day ++ [44, 32] ++ intToStr d.year

/-- The run-length grouping loop of `formatGameRange` over the sorted
numbers: accumulates maximal runs of consecutive values. -/
def gameRanges (start e : Int) : List Int → List (Int × Int)
  | [] => [(start, e)]
  | v :: rest =>
    if v = e + 1 then gameRanges start v rest
    else (start, e) :: gameRanges v v rest

/-- `formatGameRange` from the source. -/
def formatGameRange (numbers : List Int) : Option Str :=
  match sortStable (fun a b => decide (a < b)) numbers with
  | [] => none
  | first :: rest =>
    let ranges := gameRanges first first rest
    let parts := ranges.map (fun r =>
      if r.1 = r.2 then intToStr r.1
      else intToStr r.1 ++ strLit " to " ++ intToStr r.2)
    let joined :=
      if parts.length ≤ 2 then joinStr (strLit " and ") parts
      else joinStr (strLit ", ") parts.dropLast ++ strLit ", and " ++
        parts.getLastD []
    some (strLit "games " ++ joined)

/-- `formatLabelList` from the source. -/
def formatLabelList (labels : List Str) : Option Str :=
  match labels with
  | [] => none
  | [l] => some l
  | [a, b] => some (a ++ strLit " and " ++ b)
  | _ => some (joinStr (strLit ", ") labels.dropLast ++ strLit ", and " ++
      labels.getLastD [])

/-- `buildSelectionLabel` from the source.  String truthiness: an empty
string behaves like `null`. -/
def buildSelectionLabel (selectedGameNumbers : List Int) (tf : TimeFilter)
    (sessionLabels : List Str) : Option Str :=
  let gameLabel := formatGameRange selectedGameNumbers
  let timeParts : List Str :=
    (match tf.beforeMinutes with
     | some m => [strLit "before " ++ formatMinutesToTime m]
     | none => []) ++
    (match tf.afterMinutes with
     | some m => [strLit "after " ++ formatMinutesToTime m]
     | none => [])
  let timePhrase := joinStr (strLit " and ") timeParts
  let timeLabel : Str :=
    match tf.date with
    | some d =>
      if !timePhrase.isEmpty then
        strLit "played " ++ timePhrase ++ strLit " on " ++ formatDateLabel d
      else strLit "played on " ++ formatDateLabel d
    | none => if !timePhrase.isEmpty then strLit "played " ++ timePhrase else []
  let gameTruthy := match gameLabel with
    | some g => !g.isEmpty
    | none => false
  if gameTruthy && !timeLabel.isEmpty then
    some (gameLabel.getD [] ++ [32] ++ timeLabel)
  else if gameTruthy then gameLabel
  else if !timeLabel.isEmpty then some (strLit "games " ++ timeLabel)
  else if !sessionLabels.isEmpty then
    match formatLabelList sessionLabels with
    | some sl => if !sl.isEmpty then some (strLit "sessions " ++ sl) else none
    | none => none
  else none

/-- The result record of `tryShortcut` (`answer` may be absent). -/
structure ShortcutResult where
  handled : Bool
  answer : Option Str := none
deriving DecidableEq, Repr

/-- `tryShortcut` from the source: the offline rule set. -/
def tryShortcut (question : Str) (selectedGames : List OGame)
    (summary : GamesSummary) (frameStats : List FrameAggregate)
    (selectedFrames : List Int) (hasTimeFilter : Bool)
    (selectionLabel : Option Str) (selectedSessionLabels : List Str) :
    ShortcutResult :=
  let lower := toLowerStr question
  let includesAverage := containsStr lower (strLit "average") ||
    containsStr lower (strLit "avg")
  let scopeSuffix : Str :=
    match selectionLabel with
    | some l => if l.isEmpty then [] else strLit " on " ++ l
    | none => []
  let sessionSuffix : Str :=
    if scopeSuffix.isEmpty && !selectedSessionLabels.isEmpty then
      strLit " in " ++
        (match formatLabelList selectedSessionLabels with
         | some sl => sl
         | none => strLit "null")
    else []
  if containsStr lower (strLit "how many games") ||
      containsStr lower (strLit "number of games") then
    { handled := true
      answer := some (strLit "You have **" ++ natToStr summary.totalGames ++
        strLit "** game" ++ (if summary.totalGames = 1 then [] else [115]) ++
        strLit " in this selection.") }
  else
    let mentionsFrame := containsStr lower (strLit "frame")
    let mentionsRate := containsStr lower (strLit "rate") ||
      containsStr lower (strLit "percent")
    let mentionsStrikeOrSpare := containsStr lower (strLit "strike") ||
      containsStr lower (strLit "spare")
    let mentionsPins := containsStr lower (strLit "pins")
    if includesAverage && !mentionsFrame && !mentionsRate &&
        !mentionsStrikeOrSpare && !mentionsPins && !hasTimeFilter then
      match summary.averageScore with
      | none => { handled := true, answer := some (strLit "No scores recorded yet.") }
      | some avg =>
        { handled := true
          answer := some (strLit "Your average score" ++
            (if !scopeSuffix.isEmpty then scopeSuffix else sessionSuffix) ++
            strLit " is **" ++ ratToJsStr avg ++ strLit "**.") }
    else if containsStr lower (strLit "total score") then
      let total := selectedGames.foldl
        (fun sum g => sum + g.total_score.getD 0) 0
      { handled := true
        answer := some (strLit "Your total score" ++
          (if !scopeSuffix.isEmpty then scopeSuffix else sessionSuffix) ++
          strLit " is **" ++ intToStr total ++ strLit "**.") }
    else if containsStr lower (strLit "best score") ||
        containsStr lower (strLit "highest score") ||
        containsStr lower (strLit "max score") then
      match selectedGames.filter (fun g => g.total_score ≠ none) with
      | [] => { handled := true, answer := some (strLit "No scored games found.") }
      | first :: rest =>
        let best := rest.foldl
          (fun prev current =>
            if current.total_score.getD 0 > prev.total_score.getD 0 then current
            else prev) first
        { handled := true
          answer := some (strLit "Your highest score" ++
            (if !scopeSuffix.isEmpty then scopeSuffix else sessionSuffix) ++
            strLit " is **" ++
            (match best.total_score with
             | some v => intToStr v
             | none => strLit "null") ++
            strLit "** in **" ++ best.game_name ++ strLit "**.") }
    else if containsStr lower (strLit "worst score") ||
        containsStr lower (strLit "lowest score") ||
        containsStr lower (strLit "min score") then
      match selectedGames.filter (fun g => g.total_score ≠ none) with
      | [] => { handled := true, answer := some (strLit "No scored games found.") }
      | first :: rest =>
        let worst := rest.foldl
          (fun prev current =>
            if current.total_score.getD 0 < prev.total_score.getD 0 then current
            else prev) first
        { handled := true
          answer := some (strLit "Your lowest score" ++
            (if !scopeSuffix.isEmpty then scopeSuffix else sessionSuffix) ++
            strLit " is **" ++
            (match worst.total_score with
             | some v => intToStr v
             | none => strLit "null") ++
            strLit "** in **" ++ worst.game_name ++ strLit "**.") }
    else if containsStr lower (strLit "strike rate") ||
        containsStr lower (strLit "strike percentage") then
      if !selectedFrames.isEmpty then
        let lines := (frameStats.filter
            (fun e => selectedFrames.contains e.frame)).map
          (fun e => strLit "Frame " ++ intToStr e.frame ++ strLit ": **" ++
            formatRate (some e.strikeRate) ++ strLit "**")
        { handled := true
          answer := some (strLit "Strike rate by frame" ++ scopeSuffix ++
            strLit ": " ++ joinStr (strLit ", ") lines ++ [46]) }
      else
        { handled := true
          answer := some (strLit "Your strike rate" ++
            (if !scopeSuffix.isEmpty then scopeSuffix else sessionSuffix) ++
            strLit " is **" ++ formatRate (some summary.strikeRate) ++
            strLit "**.") }
    else if containsStr lower (strLit "spare rate") ||
        containsStr lower (strLit "spare percentage") then
      if !selectedFrames.isEmpty then
        let lines := (frameStats.filter
            (fun e => selectedFrames.contains e.frame)).map
          (fun e => strLit "Frame " ++ intToStr e.frame ++ strLit ": **" ++
            formatRate (some e.spareRate) ++ strLit "**")
        { handled := true
          answer := some (strLit "Spare rate by frame" ++ scopeSuffix ++
            strLit ": " ++ joinStr (strLit ", ") lines ++ [46]) }
      else
        { handled := true
          answer := some (strLit "Your spare rate" ++
            (if !scopeSuffix.isEmpty then scopeSuffix else sessionSuffix) ++
            strLit " is **" ++ formatRate (some summary.spareRate) ++
            strLit "**.") }
    else if includesAverage && mentionsFrame then
      if selectedFrames.isEmpty then { handled := false }
      else
        let lines := (frameStats.filter
            (fun e => selectedFrames.contains e.frame)).map
          (fun e =>
            match e.averagePins with
            | none => strLit "Frame " ++ intToStr e.frame ++ strLit ": n/a"
            | some ap => strLit "Frame " ++ intToStr e.frame ++
                strLit ": **" ++ ratToJsStr ap ++ strLit "**")
        { handled := true
          answer := some (strLit "Average pins per frame" ++
            (if !scopeSuffix.isEmpty then scopeSuffix else sessionSuffix) ++
            strLit ": " ++ joinStr (strLit ", ") lines ++ [46]) }
    else { handled := false }

/-- The fields of the Degraded response body built at the end of `POST`
(less the meta/scope fields, which do not bear on the claim). -/
structure DegradedResponse where
  onlineError : Str
  offlineAnswer : Str
  offlineNote : Str
deriving DecidableEq, Repr

/-- The Degraded-response construction at the end of `POST`: both online
tiers have failed and the offline rule set answers. -/
def degradedResponse (question : Str) (offlineGames : List OGame)
    (summaryOffline : GamesSummary) (frameStatsOffline : List FrameAggregate)
    (selectedFrames : List Int) (hasTimeFilter : Bool)
    (selectedNumbers : List Int) (localTimeFilter : TimeFilter)
    (selectedSessionLabels : List Str) (onlineErrors : List Str)
    (debugError : Bool) : DegradedResponse :=
  let onlineError :=
    if !onlineErrors.isEmpty then joinStr [32] onlineErrors
    else strLit "Chat failed."
  let selectionLabel :=
    buildSelectionLabel selectedNumbers localTimeFilter selectedSessionLabels
  let shortcut := tryShortcut question offlineGames summaryOffline
    frameStatsOffline selectedFrames hasTimeFilter selectionLabel
    selectedSessionLabels
  let offlineAnswer :=
    match shortcut.answer with
    | some a =>
      if shortcut.handled && !a.isEmpty then applyOfflineBold (ensureSentence a)
      else strLit "Offline mode could not answer this question with basic stats."
    | none => strLit "Offline mode could not answer this question with basic stats."
  let finalOfflineAnswer := formatOfflineAnswer offlineAnswer
  { onlineError := if debugError then onlineError
      else summarizeOnlineError onlineError
    offlineAnswer := finalOfflineAnswer
    offlineNote := strLit "This response was done offline so it can\x27t handle complex questions and may be wrong." }

theorem summarizeOnlineError_ne_nil (raw : Str) :
    summarizeOnlineError raw ≠ [] := by
  unfold summarizeOnlineError
  dsimp only
  split_ifs <;> decide

/-- Claim C1: whatever the request was and however the online tiers
failed, the Degraded response is built with a non-empty offline answer
(the formatting pipeline always yields at least a fallback sentence),
the fixed offline warning note, and a non-empty online error text
(outside debug mode it is one of the fixed summaries). -/
theorem claim_c1_degraded_nonempty (question : Str) (offlineGames : List OGame)
    (summaryOffline : GamesSummary) (frameStatsOffline : List FrameAggregate)
    (selectedFrames : List Int) (hasTimeFilter : Bool)
    (selectedNumbers : List Int) (localTimeFilter : TimeFilter)
    (selectedSessionLabels : List Str) (onlineErrors : List Str)
    (debugError : Bool) :
    (degradedResponse question offlineGames summaryOffline frameStatsOffline
      selectedFrames hasTimeFilter selectedNumbers localTimeFilter
      selectedSessionLabels onlineErrors debugError).offlineAnswer ≠ [] ∧
    (degradedResponse question offlineGames summaryOffline frameStatsOffline
      selectedFrames hasTimeFilter selectedNumbers localTimeFilter
      selectedSessionLabels onlineErrors debugError).offlineNote =
      strLit "This response was done offline so it can\x27t handle complex questions and may be wrong." ∧
    (degradedResponse question offlineGames summaryOffline frameStatsOffline
      selectedFrames hasTimeFilter selectedNumbers localTimeFilter
      selectedSessionLabels onlineErrors false).onlineError ≠ [] := by
  refine ⟨?_, rfl, ?_⟩
  · exact ensureSentence_ne_nil _
  · exact summarizeOnlineError_ne_nil _

end BowlingChat
